import Mathlib

/-!
Field resolver, document codec and bulk write engine of `common-go/elasticsearch`

A shallow embedding of `src/batch.go` (the reflection helpers, the document codec,
`InsertMany` / `UpsertMany`, `PatchOne` and the find operations) together with theorems
about it.

Conventions of the embedding:

* a Go struct type, as seen through `reflect.Type`, is the list of its fields in
  declaration order; a field carries its name, the result of
  `field.Tag.Lookup("json")` (`none` when the tag has no `json` key) and its `PkgPath`
  (empty exactly when the field is exported);
* a Go `map[string]T` is a function `String → Option T`;
* `int` results are `Int` (the only negative value in use is `-1`);
* a panic is the result `none`;
* collaborators (the bulk indexer, the engine) are explicit parameters.
-/

namespace Elasticsearch

/-! ## Data model -/

/-- One field of a struct type as reported by `reflect.Type.Field(i)`: its structural
name, the value of `Tag.Lookup("json")`, and its `PkgPath`, which is empty for an
exported field and names the declaring package for an unexported one. -/
structure StructField where
  Name : String
  Tag : Option String
  PkgPath : String
  deriving DecidableEq, Repr

/-- A struct type: its fields in declaration order (`NumField` is the length). -/
abbrev StructType := List StructField

/-- A Go map with string keys. -/
abbrev GoMap (V : Type) := String → Option V

/-- The map literal with no entries. -/
def GoMap.empty {V : Type} : GoMap V := fun _ => none

/-- Assignment of one key, as in `m[k] = v`. -/
def GoMap.set {V : Type} (m : GoMap V) (k : String) (v : V) : GoMap V :=
  fun k' => if k' = k then some v else m k'

/-- Removal of one key, as in `delete(m, k)`. -/
def GoMap.delete {V : Type} (m : GoMap V) (k : String) : GoMap V :=
  fun k' => if k' = k then none else m k'

/-- The expression `strings.Split(tag, ",")[0]`: everything before the first comma
(the whole string when it has no comma). -/
def firstToken (tag : String) : String :=
  String.mk (tag.data.takeWhile (fun c => c != ','))

/-- The expression `strings.Contains(tag, ",")`. -/
def containsComma (tag : String) : Bool :=
  tag.data.any (fun c => c == ',')

/-! ## Field resolver -/

/-- Loop of `FindFieldByJson` over the fields from index `i` on. -/
def FindFieldByJson.loop (jsonTagName : String) : List StructField → Nat → Int × String
  | [], _ => (-1, jsonTagName)
  | field :: rest, i =>
    match field.Tag with
    | some tag1 =>
      if firstToken tag1 = jsonTagName then ((i : Int), field.Name)
      else FindFieldByJson.loop jsonTagName rest (i + 1)
    | none => FindFieldByJson.loop jsonTagName rest (i + 1)

/-- Go function `FindFieldByJson(modelType, jsonTagName)`. -/
def FindFieldByJson (modelType : StructType) (jsonTagName : String) : Int × String :=
  FindFieldByJson.loop jsonTagName modelType 0

/-- Go function `FindIdField(modelType)`. -/
def FindIdField (modelType : StructType) : Int × String :=
  FindFieldByJson modelType "_id"

/-- Loop of `FindFieldByName` over the fields from index `index` on. -/
def FindFieldByName.loop (fieldName : String) : List StructField → Nat → Int × String
  | [], _ => (-1, fieldName)
  | field :: rest, index =>
    if field.Name = fieldName then
      match field.Tag with
      | some jsonTag => ((index : Int), firstToken jsonTag)
      | none => ((index : Int), fieldName)
    else FindFieldByName.loop fieldName rest (index + 1)

/-- Go function `FindFieldByName(modelType, fieldName)`. -/
def FindFieldByName (modelType : StructType) (fieldName : String) : Int × String :=
  FindFieldByName.loop fieldName modelType 0

/-- Go function `FindFieldByIndex(modelType, fieldIndex)`, for a field index that is not
negative; the pair is `(fieldName, jsonTagName)`. -/
def FindFieldByIndex (modelType : StructType) (fieldIndex : Nat) : String × String :=
  match modelType[fieldIndex]? with
  | some field =>
    match field.Tag with
    | some jsonTag => (field.Name, firstToken jsonTag)
    | none => (field.Name, "")
  | none => ("", "")

/-- The call `modelType.FieldByName(name)` for a top-level name: the first field so
named. -/
def FieldByName (modelType : StructType) (name : String) : Option StructField :=
  modelType.find? (fun f => decide (f.Name = name))

/-- Loop of `MakeMapJson`: `rest` are the fields still to visit. -/
def MakeMapJson.loop (modelType : StructType) : List StructField → GoMap String → GoMap String
  | [], maps => maps
  | field :: rest, maps =>
    let key1 := field.Name
    match FieldByName modelType key1 with
    | some fields =>
      match fields.Tag with
      | some tag =>
        if containsComma tag then
          MakeMapJson.loop modelType rest (maps.set key1 (firstToken tag))
        else
          MakeMapJson.loop modelType rest (maps.set key1 tag)
      | none => MakeMapJson.loop modelType rest (maps.set key1 key1)
    | none => MakeMapJson.loop modelType rest (maps.set key1 key1)

/-- Go function `MakeMapJson(modelType)`. -/
def MakeMapJson (modelType : StructType) : GoMap String :=
  MakeMapJson.loop modelType modelType GoMap.empty

/-- The document property name of a field as the specification defines it: the first
comma-delimited token of the json annotation if present, else the field's own name. -/
def StructField.propertyName (f : StructField) : String :=
  match f.Tag with
  | some tag => firstToken tag
  | none => f.Name

/-- A field carries a json annotation whose first comma-delimited token is `name`:
the test `ok1 && strings.Split(tag1, ",")[0] == jsonTagName` of `FindFieldByJson`. -/
def StructField.annotatedAs (f : StructField) (name : String) : Prop :=
  f.Tag.map firstToken = some name

instance (f : StructField) (name : String) : Decidable (f.annotatedAs name) := by
  unfold StructField.annotatedAs; infer_instance

/-! ## Document codec -/

/-- A runtime value held by a field or by a raw field map: the nil interface, a string,
an integer, a boolean, or `iface held` for a struct field of static type `interface{}`
that holds `held` (a nil interface field is `iface nil`). -/
inductive Value where
  | nil
  | str (s : String)
  | int (n : Int)
  | bool (b : Bool)
  | iface (held : Value)
  deriving DecidableEq, Repr

/-- The call `v.Interface()` on the `reflect.Value` of an accessible field: the value
held, which for a field of interface type is the value inside the interface. -/
def Value.Interface : Value → Value
  | .iface held => held
  | v => v

/-- A struct value as seen through `reflect.Value`: every field of its type, in
declaration order, paired with the value it holds. -/
abbrev Record := List (StructField × Value)

/-- The call `valueOf.Type()`. -/
def Record.Type (r : Record) : StructType := r.map Prod.fst

/-- Loop of `BuildQueryWithoutIdFromObject` over the fields from index `i` on. `none` is
the panic of `valueOf.Field(i).Interface()` on an unexported field. -/
def BuildQueryWithoutIdFromObject.loop (typ : StructType) (idIndex : Int) :
    List (StructField × Value) → Nat → GoMap Value → Option (GoMap Value)
  | [], _, result => some result
  | (field, v) :: rest, i, result =>
    if (i : Int) ≠ idIndex then
      if field.PkgPath = "" then
        BuildQueryWithoutIdFromObject.loop typ idIndex rest (i + 1)
          (result.set (FindFieldByIndex typ i).2 v.Interface)
      else none
    else
      BuildQueryWithoutIdFromObject.loop typ idIndex rest (i + 1) result

/-- Go function `BuildQueryWithoutIdFromObject(object)` for a struct value `object`;
`none` is a panic. -/
def BuildQueryWithoutIdFromObject (object : Record) : Option (GoMap Value) :=
  BuildQueryWithoutIdFromObject.loop object.Type (FindIdField object.Type).1 object 0
    GoMap.empty

/-! ## Errors and reflection on values -/

/-- A Go `error` value: one made in this package by `errors.New(text)`, or one handed
back by a collaborator (the bulk indexer, the engine client, the JSON decoder). -/
inductive Error where
  | New (text : String)
  | collaborator (text : String)
  deriving DecidableEq, Repr

/-- The call `String()` on the `reflect.Value` of a field, or on `reflect.ValueOf(v)`:
the string itself for the kind `String`, and the placeholder `<T Value>` for any other
kind. A field of interface type has the kind `Interface` whatever it holds, and
`reflect.ValueOf(nil)` is the invalid `reflect.Value`. -/
def Value.String : Value → String
  | .str s => s
  | .int _ => "<int Value>"
  | .bool _ => "<bool Value>"
  | .iface _ => "<interface {} Value>"
  | .nil => "<invalid Value>"

/-- The call `reflect.ValueOf(v).IsZero()`; `none` is the panic that `IsZero` raises on the
invalid `reflect.Value`, which is what `reflect.ValueOf` returns for a nil interface. -/
def Value.IsZero : Value → Option Bool
  | .nil => none
  | .str s => some (decide (s = ""))
  | .int n => some (decide (n = 0))
  | .bool b => some (!b)
  | .iface held => some (decide (held = Value.nil))

/-! ## Bulk write engine -/

/-- The `model interface{}` argument of the bulk operations. -/
inductive ModelArg where
  | slice (elems : List Record)
  | pointerToSlice (elems : List Record)
  | other
  deriving Repr

/-- The value `reflect.Indirect(reflect.ValueOf(model))`, reduced to what the bulk operations ask
of it: `some elems` when its kind is `reflect.Slice`, `none` otherwise. -/
def ModelArg.indirect : ModelArg → Option (List Record)
  | .slice elems => some elems
  | .pointerToSlice elems => some elems
  | .other => none

/-- An `esutil.BulkIndexerItem` (the two callbacks are fixed by the caller and are
accounted for in `BulkIndexer.callbacks`). -/
structure BulkIndexerItem where
  Action : String
  DocumentID : String
  Body : GoMap Value

/-- One invocation of `OnSuccess` (`success = true`) or of `OnFailure`, with the
`res.DocumentID` that the engine reported. -/
structure Callback where
  success : Bool
  DocumentID : String
  deriving DecidableEq, Repr

/-- The behaviour of the `esutil` collaborator during one call: the text of the error of
`NewBulkIndexer` if any, of the error of the `bi.Add` made for position `i` if any, the
callbacks invoked up to the return of `bi.Close` in order of invocation, and the text of
the error of `bi.Close` if any. Callbacks are accounted for at `Close`; their interleaving with the
submission loop is not modelled. -/
structure BulkIndexer where
  newErr : Option String
  addErr : Nat → Option String
  callbacks : List Callback
  closeErr : Option String

/-- The two helpers of the bulk operations that are not among the sources. -/
structure Helpers where
  FindListIdField : StructType → ModelArg → List String
  BuildIndicesResult : List String → List String → List String → List Int × List Int

/-- The variables the submission loop updates, with the log of the `bi.Add` calls:
every call made (with the position it was made for), and the items `bi.Add` accepted. -/
structure Submitting where
  addCalls : List (Nat × BulkIndexerItem)
  accepted : List BulkIndexerItem
  failureIndex : List Int

/-- What a bulk operation returns, with the log of its collaborator calls. -/
structure BulkOutcome where
  successIndices : List Int
  failureIndices : List Int
  err : Option Error
  opened : Bool
  addCalls : List (Nat × BulkIndexerItem)
  accepted : List BulkIndexerItem

/-- The submission loop of `InsertMany` / `UpsertMany` (they differ in `action` only),
over the elements from position `i` on. `none` is a panic: that of
`modelValue.Field(idIndex)` on an element with too few fields, or that of
`BuildQueryWithoutIdFromObject`. The loop destructures `FindIdField(modelType)` as
`idIndex, _, _` and uses the index only. -/
def submitLoop (action : String) (bi : BulkIndexer) (modelType : StructType) :
    List Record → Nat → Submitting → Option Submitting
  | [], _, st => some st
  | sliceValue :: rest, i, st =>
    let idIndex := (FindIdField modelType).1
    if idIndex ≥ 0 then
      match sliceValue[idIndex.toNat]? with
      | none => none
      | some (_, idField) =>
        let idValue := idField.String
        if idValue ≠ "" then
          match BuildQueryWithoutIdFromObject sliceValue with
          | none => none
          | some body =>
            let item : BulkIndexerItem := ⟨action, idValue, body⟩
            match bi.addErr i with
            | some _ =>
              submitLoop action bi modelType rest (i + 1)
                ⟨st.addCalls ++ [(i, item)], st.accepted, st.failureIndex ++ [(i : Int)]⟩
            | none =>
              submitLoop action bi modelType rest (i + 1)
                ⟨st.addCalls ++ [(i, item)], st.accepted ++ [item], st.failureIndex⟩
        else
          submitLoop action bi modelType rest (i + 1)
            ⟨st.addCalls, st.accepted, st.failureIndex ++ [(i : Int)]⟩
    else
      submitLoop action bi modelType rest (i + 1)
        ⟨st.addCalls, st.accepted, st.failureIndex ++ [(i : Int)]⟩

/-- The expression `modelValue.Field(idIndex).String()` for an element of the slice:
the identifier the loop reads (empty when the element has no such field). -/
def idValueOf (modelType : StructType) (sliceValue : Record) : String :=
  match sliceValue[(FindIdField modelType).1.toNat]? with
  | some (_, idField) => idField.String
  | none => ""

/-- The two tests an element passes before the loop calls `bi.Add` for it:
`idIndex >= 0` and `idValue != ""`. -/
def passesValidation (modelType : StructType) (sliceValue : Record) : Bool :=
  decide ((FindIdField modelType).1 ≥ 0) && decide (idValueOf modelType sliceValue ≠ "")

/-- The item the loop hands to `bi.Add` for an element whose body is built without
panic. -/
def itemOf (action : String) (modelType : StructType) (sliceValue : Record) :
    BulkIndexerItem :=
  ⟨action, idValueOf modelType sliceValue,
    (BuildQueryWithoutIdFromObject sliceValue).getD GoMap.empty⟩

/-- Every field that `BuildQueryWithoutIdFromObject` emits for a record of this type
(every field but the identifier field) is exported, so that `Interface()` does not
panic on it. -/
def emittedExported (modelType : StructType) : Prop :=
  ∀ (j : Nat) (f : StructField), modelType[j]? = some f →
    (j : Int) ≠ (FindIdField modelType).1 → f.PkgPath = ""

/-- The identifiers appended by the `OnSuccess` callbacks (`successIds`). -/
def successIdsOf (callbacks : List Callback) : List String :=
  (callbacks.filter (fun c => c.success)).map (fun c => c.DocumentID)

/-- The identifiers appended by the `OnFailure` callbacks (`failIds`). -/
def failIdsOf (callbacks : List Callback) : List String :=
  (callbacks.filter (fun c => !c.success)).map (fun c => c.DocumentID)

/-- The common body of `InsertMany` and `UpsertMany`; `none` is a panic. -/
def bulkWrite (action : String) (h : Helpers) (bi : BulkIndexer) (modelType : StructType)
    (model : ModelArg) : Option BulkOutcome :=
  match model.indirect with
  | some value =>
    if value.length > 0 then
      match bi.newErr with
      | some err => some ⟨[], [], some (Error.collaborator err), true, [], []⟩
      | none =>
        let listIds := h.FindListIdField modelType model
        match submitLoop action bi modelType value 0 ⟨[], [], []⟩ with
        | none => none
        | some st =>
          match bi.closeErr with
          | some er2 => some ⟨[], [], some (Error.collaborator er2), true, st.addCalls, st.accepted⟩
          | none =>
            let r := h.BuildIndicesResult listIds (successIdsOf bi.callbacks)
              (failIdsOf bi.callbacks)
            some ⟨r.1, r.2 ++ st.failureIndex, none, true, st.addCalls, st.accepted⟩
    else some ⟨[], [], some (Error.New "invalid input"), false, [], []⟩
  | none => some ⟨[], [], some (Error.New "invalid input"), false, [], []⟩

/-- Go function `InsertMany(ctx, es, indexName, modelType, model)`. -/
def InsertMany (h : Helpers) (bi : BulkIndexer) (modelType : StructType)
    (model : ModelArg) : Option BulkOutcome :=
  bulkWrite "create" h bi modelType model

/-- Go function `UpsertMany(ctx, es, indexName, modelType, model)`. -/
def UpsertMany (h : Helpers) (bi : BulkIndexer) (modelType : StructType)
    (model : ModelArg) : Option BulkOutcome :=
  bulkWrite "index" h bi modelType model

/-- Modelled from the spec: `FindListIdField` is called by the bulk operations and is
not among the sources. Spec 4.4: the identifier-list captured at submission time, in
the same order as the input collection. -/
def FindListIdField (modelType : StructType) (model : ModelArg) : List String :=
  match model.indirect with
  | some value =>
    if (FindIdField modelType).1 ≥ 0 then value.map (idValueOf modelType) else []
  | none => []

/-- Modelled from the spec: `BuildIndicesResult` is called by the bulk operations and is
not among the sources. Spec 4.4 and 9: the succeeded and the failed identifiers are
correlated back to positional indices through the identifier list, by identifier value
only and without deduplication. -/
def BuildIndicesResult (listIds successIds failIds : List String) : List Int × List Int :=
  ((listIds.enum.filter (fun p => decide (p.2 ∈ successIds))).map (fun p => (p.1 : Int)),
   (listIds.enum.filter (fun p => decide (p.2 ∈ failIds))).map (fun p => (p.1 : Int)))

/-- The contract of the batch channel that the reconciliation relies on (spec 4.4,
draining): by the return of `bi.Close` every accepted item has received exactly one
callback, and that callback carries the item's own identifier. -/
def CallbackContract (bi : BulkIndexer) (accepted : List BulkIndexerItem) : Prop :=
  (bi.callbacks.map (fun c => c.DocumentID)).Perm (accepted.map (fun it => it.DocumentID))

instance (bi : BulkIndexer) (accepted : List BulkIndexerItem) :
    Decidable (CallbackContract bi accepted) := by
  unfold CallbackContract; infer_instance

/-- The helpers as modelled from the spec. -/
def specHelpers : Helpers := ⟨FindListIdField, BuildIndicesResult⟩

/-! ## Single-record operations -/

/-- An `esapi.UpdateRequest`. -/
structure UpdateRequest where
  Index : String
  DocumentID : String
  Body : GoMap Value
  Refresh : String

/-- What `req.Do` and the decoding of the response body yield for an update request:
an error of `req.Do`, an error status, a body that `Decode` rejects, a decoded body on
which the type assertions for `_shards.successful` panic, or the acknowledged count. -/
inductive UpdateResponse where
  | transportError (err : String)
  | errorStatus
  | undecodable (err : String)
  | malformed
  | acknowledged (successful : Int)
  deriving DecidableEq, Repr

/-- What `PatchOne` does: the returned pair (`none` is a panic), the caller's map as
`PatchOne` leaves it, and the requests issued to the engine. -/
structure PatchOutcome where
  ret : Option (Int × Option Error)
  model : GoMap Value
  requests : List UpdateRequest

/-- Go function `PatchOne(ctx, es, indexName, model)`; `engine` answers the request. The lookup
`model["_id"]` yields the nil interface when the key is absent. -/
def PatchOne (engine : UpdateRequest → UpdateResponse) (indexName : String)
    (model : GoMap Value) : PatchOutcome :=
  let idValue := (model "_id").getD Value.nil
  match idValue.IsZero with
  | none => ⟨none, model, []⟩
  | some true => ⟨some (0, some (Error.New "missing document ID in the map")), model, []⟩
  | some false =>
    let model' := model.delete "_id"
    let req : UpdateRequest := ⟨indexName, idValue.String, model', "true"⟩
    match engine req with
    | .transportError err => ⟨some (-1, some (Error.collaborator err)), model', [req]⟩
    | .errorStatus =>
      ⟨some (-1, some (Error.New "document ID not exists in the index")), model', [req]⟩
    | .undecodable err => ⟨some (-1, some (Error.collaborator err)), model', [req]⟩
    | .malformed => ⟨none, model', [req]⟩
    | .acknowledged successful => ⟨some (successful, none), model', [req]⟩

/-! ## Find operations -/

/-- A decoded JSON value, as `encoding/json` stores it in an `interface{}`: an object is
a `map[string]interface{}`, given by its entries (a key holds the first value listed for
it), an array a `[]interface{}`, a number a `float64` (the numbers read here are hit
counts, taken as integers). -/
inductive Json where
  | null
  | bool (b : Bool)
  | num (n : Int)
  | str (s : String)
  | arr (elems : List Json)
  | obj (fields : List (String × Json))

/-- The map index `m[key]` read as an `interface{}`: nil when the key is absent. -/
def Json.index (m : List (String × Json)) (key : String) : Json :=
  match m.find? (fun entry => decide (entry.1 = key)) with
  | some entry => entry.2
  | none => Json.null

/-- The type assertion `x.(map[string]interface{})`; `none` is its panic. -/
def Json.assertObject : Json → Option (List (String × Json))
  | .obj fields => some fields
  | _ => none

/-- The type assertion `x.([]interface{})`; `none` is its panic. -/
def Json.assertArray : Json → Option (List Json)
  | .arr elems => some elems
  | _ => none

/-- The type assertion `x.(float64)` followed by the conversion to `int`; `none` is the
panic of the assertion. -/
def Json.assertNumber : Json → Option Int
  | .num n => some n
  | _ => none

/-- What `json.NewDecoder(res.Body).Decode(&r)` yields for a response body. -/
inductive DecodedBody where
  | undecodable (err : String)
  | object (r : List (String × Json))

/-- What `req.Do(ctx, es)` yields: an error, or a response with its status code and
body. -/
inductive DoResult where
  | transportError (err : String)
  | response (StatusCode : Nat) (body : DecodedBody)

/-- The test `res.IsError()` of `esapi.Response`: a status code above 299. -/
def IsError (StatusCode : Nat) : Bool :=
  decide (StatusCode > 299)

/-- An `esapi.GetRequest`. -/
structure GetRequest where
  Index : String
  DocumentID : String
  deriving DecidableEq, Repr

/-- An `esapi.SearchRequest`. -/
structure SearchRequest where
  Index : List String
  Body : Json
  TrackTotalHits : Bool
  Pretty : Bool

/-- What a decoding find operation does: the returned pair (`none` is a panic), the
payloads it handed to the decoder of the target, and the record the decoder stored in
the target if it stored one. -/
structure FindOutcome where
  ret : Option (Bool × Option Error)
  payloads : List Json
  result : Option Record

/-- Go function `FindOneByIdAndDecode(ctx, es, indexName, documentID, result)`; `engine`
answers the request and `decode` is the decoding of a payload into the target. -/
def FindOneByIdAndDecode (engine : GetRequest → DoResult)
    (decode : Json → Except String Record) (indexName documentID : String) : FindOutcome :=
  match engine ⟨indexName, documentID⟩ with
  | .transportError err => ⟨some (false, some (Error.collaborator err)), [], none⟩
  | .response StatusCode body =>
    if IsError StatusCode then ⟨some (false, some (Error.New "response error")), [], none⟩
    else
      match body with
      | .undecodable err => ⟨some (false, some (Error.collaborator err)), [], none⟩
      | .object r =>
        match decode (Json.index r "_source") with
        | .error err =>
          ⟨some (false, some (Error.collaborator err)), [Json.index r "_source"], none⟩
        | .ok record => ⟨some (true, none), [Json.index r "_source"], some record⟩

/-- Go function `FindOneById(ctx, es, indexName, documentID, modelType)`: the returned
record (`none` is the nil interface) and error; the outer `none` is a panic. -/
def FindOneById (engine : GetRequest → DoResult) (decode : Json → Except String Record)
    (indexName documentID : String) : Option (Option Record × Option Error) :=
  let out := FindOneByIdAndDecode engine decode indexName documentID
  match out.ret with
  | none => none
  | some (ok, err) => if ok then some (out.result, none) else some (none, err)

/-- Go function `FindOneAndDecode(ctx, es, index, query, result)`; `engine` answers the
request and `decode` is the decoding of a payload into the target. -/
def FindOneAndDecode (engine : SearchRequest → DoResult)
    (decode : Json → Except String Record) (index : List String) (query : Json) :
    FindOutcome :=
  match engine ⟨index, query, true, true⟩ with
  | .transportError err => ⟨some (false, some (Error.collaborator err)), [], none⟩
  | .response StatusCode body =>
    if IsError StatusCode then ⟨some (false, some (Error.New "response error")), [], none⟩
    else
      match body with
      | .undecodable err => ⟨some (false, some (Error.collaborator err)), [], none⟩
      | .object r =>
        match (Json.index r "hits").assertObject with
        | none => ⟨none, [], none⟩
        | some hitsObject =>
          match (Json.index hitsObject "hits").assertArray with
          | none => ⟨none, [], none⟩
          | some hits =>
            match (Json.index hitsObject "total").assertObject with
            | none => ⟨none, [], none⟩
            | some totalObject =>
              match (Json.index totalObject "value").assertNumber with
              | none => ⟨none, [], none⟩
              | some total =>
                if total ≥ 1 then
                  match hits[0]? with
                  | none => ⟨none, [], none⟩
                  | some hit =>
                    match decode hit with
                    | .error err => ⟨some (false, some (Error.collaborator err)), [hit], none⟩
                    | .ok record => ⟨some (true, none), [hit], some record⟩
                else ⟨some (false, none), [], none⟩

/-- Go function `FindOne(ctx, es, index, query, modelType)`: the returned record (`none`
is the nil interface) and error; the outer `none` is a panic. -/
def FindOne (engine : SearchRequest → DoResult) (decode : Json → Except String Record)
    (index : List String) (query : Json) : Option (Option Record × Option Error) :=
  let out := FindOneAndDecode engine decode index query
  match out.ret with
  | none => none
  | some (ok, err) => if ok then some (out.result, none) else some (none, err)

/-- The search response envelope with the given hit list and total hit count. -/
def searchEnvelope (hits : List Json) (total : Int) : List (String × Json) :=
  [("hits", Json.obj [("hits", Json.arr hits), ("total", Json.obj [("value", Json.num total)])])]

/-! ## Sample inputs -/

/-- A record type with an identifier field and one more annotated field. -/
def sampleType : StructType := [⟨"Id", some "_id", ""⟩, ⟨"Name", some "name,omitempty", ""⟩]

/-- A record of `sampleType`. -/
def sampleRecord (id name : String) : Record :=
  [(⟨"Id", some "_id", ""⟩, .str id), (⟨"Name", some "name,omitempty", ""⟩, .str name)]

/-- A batch channel that opens, accepts every item, reports the given callbacks and
closes without error. -/
def sampleIndexer (callbacks : List Callback) : BulkIndexer :=
  ⟨none, fun _ => none, callbacks, none⟩

/-! ## Theorems: field resolver -/

theorem firstToken_of_not_containsComma (tag : String) (h : containsComma tag = false) :
    firstToken tag = tag := by
  unfold firstToken
  have hall : ∀ c ∈ tag.data, (c != ',') = true := by
    intro c hc
    unfold containsComma at h
    rw [List.any_eq_false] at h
    have := h c hc
    simpa [bne] using this
  have : tag.data.takeWhile (fun c => c != ',') = tag.data :=
    List.takeWhile_eq_self_iff.mpr hall
  rw [this]

/-- The loop of `FindFieldByJson` stops at the first field annotated as `name`. -/
theorem FindFieldByJson_loop_first (name : String) :
    ∀ (l : List StructField) (i k : Nat) (f : StructField), l[k]? = some f →
      f.annotatedAs name → (∀ j g, j < k → l[j]? = some g → ¬ g.annotatedAs name) →
      FindFieldByJson.loop name l i = (((i + k : Nat) : Int), f.Name) := by
  intro l
  induction l with
  | nil => intro i k f h; simp at h
  | cons g rest ih =>
    intro i k f hk hf hfirst
    cases k with
    | zero =>
      simp only [List.getElem?_cons_zero, Option.some.injEq] at hk
      subst hk
      unfold StructField.annotatedAs at hf
      cases htag : g.Tag with
      | none => rw [htag] at hf; simp at hf
      | some tag =>
        rw [htag] at hf
        simp only [Option.map_some', Option.some.injEq] at hf
        simp [FindFieldByJson.loop, htag, hf]
    | succ k =>
      simp only [List.getElem?_cons_succ] at hk
      have hg : ¬ g.annotatedAs name := hfirst 0 g (Nat.succ_pos k) (by simp)
      have hrest : ∀ j g', j < k → rest[j]? = some g' → ¬ g'.annotatedAs name := by
        intro j g' hj hg'
        exact hfirst (j + 1) g' (Nat.succ_lt_succ hj) (by simpa using hg')
      have := ih (i + 1) k f hk hf hrest
      unfold StructField.annotatedAs at hg
      cases htag : g.Tag with
      | none =>
        simp only [FindFieldByJson.loop, htag]
        rw [this]; congr 2; omega
      | some tag =>
        rw [htag] at hg
        simp only [Option.map_some', Option.some.injEq] at hg
        simp only [FindFieldByJson.loop, htag, hg, if_false]
        rw [this]; congr 2; omega

/-- The loop of `FindFieldByJson` answers `-1` exactly when no field is annotated as
`name`, and then echoes `name`. -/
theorem FindFieldByJson_loop_absent (name : String) :
    ∀ (l : List StructField) (i : Nat),
      ((∀ f ∈ l, ¬ f.annotatedAs name) → FindFieldByJson.loop name l i = (-1, name)) ∧
      ((FindFieldByJson.loop name l i).1 = -1 → ∀ f ∈ l, ¬ f.annotatedAs name) := by
  intro l
  induction l with
  | nil => intro i; simp [FindFieldByJson.loop]
  | cons g rest ih =>
    intro i
    have ih1 := (ih (i + 1)).1
    have ih2 := (ih (i + 1)).2
    cases htag : g.Tag with
    | none =>
      have hg : ¬ g.annotatedAs name := by simp [StructField.annotatedAs, htag]
      constructor
      · intro h
        simp only [FindFieldByJson.loop, htag]
        exact ih1 (fun f hf => h f (List.mem_cons_of_mem _ hf))
      · intro h f hf
        simp only [FindFieldByJson.loop, htag] at h
        rcases List.mem_cons.mp hf with rfl | hf
        · exact hg
        · exact ih2 h f hf
    | some tag =>
      by_cases htok : firstToken tag = name
      · constructor
        · intro h
          exact absurd (by simp [StructField.annotatedAs, htag, htok]) (h g (List.mem_cons_self _ _))
        · intro h
          simp only [FindFieldByJson.loop, htag, htok, if_true] at h
          omega
      · have hg : ¬ g.annotatedAs name := by simp [StructField.annotatedAs, htag, htok]
        constructor
        · intro h
          simp only [FindFieldByJson.loop, htag, htok, if_false]
          exact ih1 (fun f hf => h f (List.mem_cons_of_mem _ hf))
        · intro h f hf
          simp only [FindFieldByJson.loop, htag, htok, if_false] at h
          rcases List.mem_cons.mp hf with rfl | hf
          · exact hg
          · exact ih2 h f hf

/-- C2 (as amended): `FindIdField` returns the index and structural name of the first
field, in declaration order, that carries a json annotation whose first comma-delimited
token is `_id`; it returns the absent binding (index `-1`, name `_id`) exactly when no
field carries such an annotation. -/
theorem FindIdField_first_annotated (modelType : StructType) :
    (∀ (i : Nat) (f : StructField), modelType[i]? = some f → f.annotatedAs "_id" →
        (∀ j g, j < i → modelType[j]? = some g → ¬ g.annotatedAs "_id") →
        FindIdField modelType = ((i : Int), f.Name)) ∧
    ((FindIdField modelType).1 = -1 ↔ ∀ f ∈ modelType, ¬ f.annotatedAs "_id") ∧
    ((FindIdField modelType).1 = -1 → FindIdField modelType = (-1, "_id")) := by
  refine ⟨?_, ?_, ?_⟩
  · intro i f hi hf hfirst
    have := FindFieldByJson_loop_first "_id" modelType 0 i f hi hf hfirst
    simpa [FindIdField, FindFieldByJson] using this
  · constructor
    · exact (FindFieldByJson_loop_absent "_id" modelType 0).2
    · intro h
      have := (FindFieldByJson_loop_absent "_id" modelType 0).1 h
      simp [FindIdField, FindFieldByJson, this]
  · intro h
    exact (FindFieldByJson_loop_absent "_id" modelType 0).1
      ((FindFieldByJson_loop_absent "_id" modelType 0).2 h)

/-- C2, witness of the amended statement on a two-field type whose second field is the
identifier. -/
theorem FindIdField_first_annotated_witness :
    FindIdField [⟨"Name", some "name", ""⟩, ⟨"Id", some "_id,omitempty", ""⟩] = (1, "Id") :=
  (FindIdField_first_annotated [⟨"Name", some "name", ""⟩, ⟨"Id", some "_id,omitempty", ""⟩]).1 1
    ⟨"Id", some "_id,omitempty", ""⟩ (by decide) (by decide)
    (by
      intro j g hj hg
      have hj0 : j = 0 := by omega
      subst hj0
      simp only [List.getElem?_cons_zero, Option.some.injEq] at hg
      subst hg
      decide)

/-- C2, counterexample to the claim as stated: the only field of this type has no json
annotation and is named `_id`, so its document property name is `_id`, yet
`FindIdField` reports the absent binding. -/
theorem FindIdField_unannotated_counterexample :
    StructField.propertyName ⟨"_id", none, "main"⟩ = "_id" ∧
    FindIdField [⟨"_id", none, "main"⟩] = (-1, "_id") := by
  decide

/-- Lookup `FieldByName` finds a field through its name when no earlier field has that name. -/
theorem FieldByName_first :
    ∀ (l : List StructField) (i : Nat) (f : StructField), l[i]? = some f →
      (∀ j g, j < i → l[j]? = some g → g.Name ≠ f.Name) → FieldByName l f.Name = some f := by
  intro l
  induction l with
  | nil => intro i f h; simp at h
  | cons g rest ih =>
    intro i f hi hfirst
    cases i with
    | zero =>
      simp only [List.getElem?_cons_zero, Option.some.injEq] at hi
      subst hi
      simp [FieldByName]
    | succ i =>
      simp only [List.getElem?_cons_succ] at hi
      have hg : g.Name ≠ f.Name := hfirst 0 g (Nat.succ_pos i) (by simp)
      have hrest : ∀ j g', j < i → rest[j]? = some g' → g'.Name ≠ f.Name := by
        intro j g' hj hg'
        exact hfirst (j + 1) g' (Nat.succ_lt_succ hj) (by simpa using hg')
      have := ih i f hi hrest
      unfold FieldByName at this ⊢
      rw [List.find?_cons_of_neg _ (by simpa using hg)]
      exact this

/-- One iteration of the loop of `MakeMapJson` assigns, under the field's name, the
property name of the first field so named. -/
theorem MakeMapJson_loop_cons (t : StructType) (field : StructField)
    (rest : List StructField) (maps : GoMap String) :
    MakeMapJson.loop t (field :: rest) maps =
      MakeMapJson.loop t rest (maps.set field.Name
        (match FieldByName t field.Name with
          | some fields => fields.propertyName
          | none => field.Name)) := by
  cases hf : FieldByName t field.Name with
  | none => simp [MakeMapJson.loop, hf]
  | some fields =>
    have hname : fields.Name = field.Name := by
      have := List.find?_some hf
      simpa using this
    cases htag : fields.Tag with
    | none => simp [MakeMapJson.loop, hf, htag, StructField.propertyName, hname]
    | some tag =>
      cases hc : containsComma tag with
      | true => simp [MakeMapJson.loop, hf, htag, hc, StructField.propertyName]
      | false =>
        simp [MakeMapJson.loop, hf, htag, hc, StructField.propertyName,
          firstToken_of_not_containsComma tag hc]

/-- What the loop of `MakeMapJson` leaves under each key. -/
theorem MakeMapJson_loop_apply (t : StructType) :
    ∀ (rest : List StructField) (maps : GoMap String) (k : String),
      MakeMapJson.loop t rest maps k =
        if k ∈ rest.map (fun f => f.Name) then
          some (match FieldByName t k with
            | some fields => fields.propertyName
            | none => k)
        else maps k := by
  intro rest
  induction rest with
  | nil => intro maps k; simp [MakeMapJson.loop]
  | cons field rest ih =>
    intro maps k
    rw [MakeMapJson_loop_cons, ih]
    by_cases hk : k ∈ rest.map (fun f => f.Name)
    · have hk' : k ∈ (field :: rest).map (fun f => f.Name) := by
        simp only [List.map_cons, List.mem_cons]; exact Or.inr hk
      rw [if_pos hk, if_pos hk']
    · rw [if_neg hk]
      by_cases hkf : k = field.Name
      · have hk' : k ∈ (field :: rest).map (fun f => f.Name) := by
          simp only [List.map_cons, List.mem_cons]; exact Or.inl hkf
        rw [if_pos hk']
        subst hkf
        simp [GoMap.set]
      · have hk' : k ∉ (field :: rest).map (fun f => f.Name) := by
          simp only [List.map_cons, List.mem_cons, not_or]; exact ⟨hkf, hk⟩
        rw [if_neg hk']
        simp [GoMap.set, hkf]

/-- Shared step: `MakeMapJson` maps the name of a field that is the first so named to
that field's property name. -/
theorem MakeMapJson_first_named_aux (modelType : StructType) :
    ∀ (i : Nat) (f : StructField), modelType[i]? = some f →
      (∀ j g, j < i → modelType[j]? = some g → g.Name ≠ f.Name) →
      MakeMapJson modelType f.Name = some f.propertyName := by
  intro i f hi hfirst
  have hmem : f.Name ∈ modelType.map (fun f => f.Name) := by
    have : f ∈ modelType := List.getElem?_mem hi
    exact List.mem_map.mpr ⟨f, this, rfl⟩
  unfold MakeMapJson
  rw [MakeMapJson_loop_apply, if_pos hmem, FieldByName_first modelType i f hi hfirst]

/-- Lookup `FieldByName` finds every field through its name when the names are pairwise
distinct. -/
theorem FieldByName_of_nodup :
    ∀ (l : List StructField), (l.map (fun f => f.Name)).Nodup →
      ∀ f ∈ l, FieldByName l f.Name = some f := by
  intro l
  induction l with
  | nil => intro _ f hf; simp at hf
  | cons g rest ih =>
    intro hnd f hf
    simp only [List.map_cons, List.nodup_cons] at hnd
    rcases List.mem_cons.mp hf with rfl | hf'
    · simp [FieldByName]
    · have hg : g.Name ≠ f.Name := by
        intro h
        exact hnd.1 (List.mem_map.mpr ⟨f, hf', h.symm⟩)
      have := ih hnd.2 f hf'
      unfold FieldByName at this ⊢
      rw [List.find?_cons_of_neg _ (by simpa using hg)]
      exact this

/-- C4 (as amended): for every struct type and every field of it that is the first
field bearing its name (every field, when the structural names are pairwise distinct),
`MakeMapJson` maps the field's structural name to the first comma-delimited token of its
json annotation when the annotation is present (whether or not it contains a comma) and
to the field's own name when it is absent; the map has no other keys than the
structural names. -/
theorem MakeMapJson_first_named (modelType : StructType) :
    (∀ (i : Nat) (f : StructField), modelType[i]? = some f →
        (∀ j g, j < i → modelType[j]? = some g → g.Name ≠ f.Name) →
        MakeMapJson modelType f.Name = some f.propertyName) ∧
    ((modelType.map (fun f => f.Name)).Nodup →
      ∀ f ∈ modelType, MakeMapJson modelType f.Name = some f.propertyName) ∧
    (∀ k : String, (MakeMapJson modelType k).isSome → ∃ f ∈ modelType, f.Name = k) := by
  refine ⟨MakeMapJson_first_named_aux modelType, ?_, ?_⟩
  · intro hnd f hf
    have hmem : f.Name ∈ modelType.map (fun f => f.Name) := List.mem_map.mpr ⟨f, hf, rfl⟩
    unfold MakeMapJson
    rw [MakeMapJson_loop_apply, if_pos hmem, FieldByName_of_nodup modelType hnd f hf]
  · intro k hk
    unfold MakeMapJson at hk
    rw [MakeMapJson_loop_apply] at hk
    by_cases hmem : k ∈ modelType.map (fun f => f.Name)
    · obtain ⟨f, hf, rfl⟩ := List.mem_map.mp hmem
      exact ⟨f, hf, rfl⟩
    · rw [if_neg hmem] at hk
      simp [GoMap.empty] at hk

/-- C4, witness of the amended statement: the second field of a two-field type, whose
annotation contains a comma. -/
theorem MakeMapJson_first_named_witness :
    MakeMapJson [⟨"Id", some "_id", ""⟩, ⟨"Name", some "name,omitempty", ""⟩] "Name" = some "name" :=
  (MakeMapJson_first_named [⟨"Id", some "_id", ""⟩, ⟨"Name", some "name,omitempty", ""⟩]).1 1
    ⟨"Name", some "name,omitempty", ""⟩ (by decide)
    (by
      intro j g hj hg
      have hj0 : j = 0 := by omega
      subst hj0
      simp only [List.getElem?_cons_zero, Option.some.injEq] at hg
      subst hg
      decide)

/-- C4, counterexample to the claim as stated: a type with two blank fields `_` that
carry different annotations. The second field's annotation token is `b`, yet the map
holds `a` under the name `_` (one key cannot serve both fields). -/
theorem MakeMapJson_repeated_name_counterexample :
    StructField.propertyName ⟨"_", some "b", "main"⟩ = "b" ∧
    MakeMapJson [⟨"_", some "a", "main"⟩, ⟨"_", some "b", "main"⟩] "_" = some "a" := by
  decide

/-- Lookup `FindFieldByIndex` on an annotated field answers the annotation's first token. -/
theorem FindFieldByIndex_annotated (t : StructType) (i : Nat) (f : StructField)
    (tag : String) (hi : t[i]? = some f) (htag : f.Tag = some tag) :
    FindFieldByIndex t i = (f.Name, firstToken tag) := by
  simp [FindFieldByIndex, hi, htag]

/-- The loop of `FindFieldByName` stops at the first field with the given name and
answers that field's property name. -/
theorem FindFieldByName_loop_first :
    ∀ (l : List StructField) (i k : Nat) (f : StructField), l[k]? = some f →
      (∀ j g, j < k → l[j]? = some g → g.Name ≠ f.Name) →
      FindFieldByName.loop f.Name l i = (((i + k : Nat) : Int), f.propertyName) := by
  intro l
  induction l with
  | nil => intro i k f h; simp at h
  | cons g rest ih =>
    intro i k f hk hfirst
    cases k with
    | zero =>
      simp only [List.getElem?_cons_zero, Option.some.injEq] at hk
      subst hk
      cases htag : g.Tag with
      | none => simp [FindFieldByName.loop, htag, StructField.propertyName]
      | some tag => simp [FindFieldByName.loop, htag, StructField.propertyName]
    | succ k =>
      simp only [List.getElem?_cons_succ] at hk
      have hg : g.Name ≠ f.Name := hfirst 0 g (Nat.succ_pos k) (by simp)
      have hrest : ∀ j g', j < k → rest[j]? = some g' → g'.Name ≠ f.Name := by
        intro j g' hj hg'
        exact hfirst (j + 1) g' (Nat.succ_lt_succ hj) (by simpa using hg')
      simp only [FindFieldByName.loop, hg, if_false]
      rw [ih (i + 1) k f hk hrest]
      congr 2; omega

/-- The loop of `FindFieldByJson` finds some field annotated as `name`, at or before any
given field so annotated. -/
theorem FindFieldByJson_loop_finds (name : String) :
    ∀ (l : List StructField) (i k : Nat) (f : StructField), l[k]? = some f →
      f.annotatedAs name →
      ∃ (j : Nat) (g : StructField), j ≤ k ∧ l[j]? = some g ∧ g.annotatedAs name ∧
        FindFieldByJson.loop name l i = (((i + j : Nat) : Int), g.Name) := by
  intro l
  induction l with
  | nil => intro i k f h; simp at h
  | cons g rest ih =>
    intro i k f hk hf
    by_cases hg : g.annotatedAs name
    · refine ⟨0, g, Nat.zero_le k, by simp, hg, ?_⟩
      exact FindFieldByJson_loop_first name (g :: rest) i 0 g (by simp) hg
        (by intro j g' hj; omega)
    · cases k with
      | zero =>
        simp only [List.getElem?_cons_zero, Option.some.injEq] at hk
        subst hk
        exact absurd hf hg
      | succ k =>
        simp only [List.getElem?_cons_succ] at hk
        obtain ⟨j, g', hjk, hj, hg', hloop⟩ := ih (i + 1) k f hk hf
        refine ⟨j + 1, g', Nat.succ_le_succ hjk, by simpa using hj, hg', ?_⟩
        have hstep : FindFieldByJson.loop name (g :: rest) i
            = FindFieldByJson.loop name rest (i + 1) := by
          unfold StructField.annotatedAs at hg
          cases htag : g.Tag with
          | none => simp [FindFieldByJson.loop, htag]
          | some tag =>
            rw [htag] at hg
            simp only [Option.map_some', Option.some.injEq] at hg
            simp [FindFieldByJson.loop, htag, hg]
        rw [hstep, hloop]
        congr 2; omega

/-- C5 (as amended): for every struct type and every field index `i` whose field
carries a json annotation and is the first field bearing its name, the lookups agree
with the forward mapping: `FindFieldByIndex` returns the field's name `n` and the
annotation's first token `p`, `MakeMapJson` assigns `p` to `n`, `FindFieldByName`
returns index `i` and `p`, and `FindFieldByJson(type, p)` finds a field, at an index
between `0` and `i`, whose annotation token is `p`. -/
theorem lookups_agree_on_annotated (modelType : StructType) (i : Nat) (f : StructField)
    (tag : String) (hi : modelType[i]? = some f) (htag : f.Tag = some tag)
    (hfirst : ∀ j g, j < i → modelType[j]? = some g → g.Name ≠ f.Name) :
    FindFieldByIndex modelType i = (f.Name, firstToken tag) ∧
    MakeMapJson modelType f.Name = some (firstToken tag) ∧
    FindFieldByName modelType f.Name = ((i : Int), firstToken tag) ∧
    ∃ (j : Nat) (g : StructField), j ≤ i ∧ modelType[j]? = some g ∧
      g.annotatedAs (firstToken tag) ∧
      FindFieldByJson modelType (firstToken tag) = ((j : Int), g.Name) := by
  have hp : f.propertyName = firstToken tag := by simp [StructField.propertyName, htag]
  refine ⟨FindFieldByIndex_annotated modelType i f tag hi htag, ?_, ?_, ?_⟩
  · rw [← hp]
    exact (MakeMapJson_first_named_aux modelType) i f hi hfirst
  · have := FindFieldByName_loop_first modelType 0 i f hi hfirst
    rw [hp] at this
    simpa [FindFieldByName] using this
  · have hf : f.annotatedAs (firstToken tag) := by simp [StructField.annotatedAs, htag]
    obtain ⟨j, g, hji, hj, hg, hloop⟩ :=
      FindFieldByJson_loop_finds (firstToken tag) modelType 0 i f hi hf
    exact ⟨j, g, hji, hj, hg, by simpa [FindFieldByJson] using hloop⟩

/-- C5, witness of the amended statement: the annotated second field of a type. -/
theorem lookups_agree_on_annotated_witness :
    FindFieldByIndex [⟨"Id", some "_id", ""⟩, ⟨"Name", some "name,omitempty", ""⟩] 1
      = ("Name", "name") ∧
    MakeMapJson [⟨"Id", some "_id", ""⟩, ⟨"Name", some "name,omitempty", ""⟩] "Name" = some "name" ∧
    FindFieldByName [⟨"Id", some "_id", ""⟩, ⟨"Name", some "name,omitempty", ""⟩] "Name"
      = (1, "name") ∧
    ∃ (j : Nat) (g : StructField), j ≤ 1 ∧
      [(⟨"Id", some "_id", ""⟩ : StructField), ⟨"Name", some "name,omitempty", ""⟩][j]? = some g ∧
      g.annotatedAs "name" ∧
      FindFieldByJson [⟨"Id", some "_id", ""⟩, ⟨"Name", some "name,omitempty", ""⟩] "name"
        = ((j : Int), g.Name) :=
  lookups_agree_on_annotated [⟨"Id", some "_id", ""⟩, ⟨"Name", some "name,omitempty", ""⟩] 1
    ⟨"Name", some "name,omitempty", ""⟩ "name,omitempty" (by decide) rfl
    (by
      intro j g hj hg
      have hj0 : j = 0 := by omega
      subst hj0
      simp only [List.getElem?_cons_zero, Option.some.injEq] at hg
      subst hg
      decide)

/-- C5, counterexample to the claim as stated: for a field without json annotation,
`FindFieldByIndex` answers the empty property name while `FindFieldByName` and
`MakeMapJson` answer the field's own name, and `FindFieldByJson` reaches the field under
neither of the two. -/
theorem lookups_disagree_counterexample :
    FindFieldByIndex [⟨"Name", none, ""⟩] 0 = ("Name", "") ∧
    FindFieldByName [⟨"Name", none, ""⟩] "Name" = (0, "Name") ∧
    MakeMapJson [⟨"Name", none, ""⟩] "Name" = some "Name" ∧
    FindFieldByJson [⟨"Name", none, ""⟩] "Name" = (-1, "Name") ∧
    FindFieldByJson [⟨"Name", none, ""⟩] "" = (-1, "") := by
  decide

/-! ## Theorems: document codec -/

/-- The loop of `BuildQueryWithoutIdFromObject`, when it returns a map, has left a key
alone if no field it emits is written under that key. -/
theorem BuildQueryWithoutIdFromObject_loop_untouched (typ : StructType) (idIndex : Int)
    (k : String) :
    ∀ (l : List (StructField × Value)) (i : Nat) (result m : GoMap Value),
      BuildQueryWithoutIdFromObject.loop typ idIndex l i result = some m →
      (∀ j, j < l.length → ((i + j : Nat) : Int) ≠ idIndex →
        (FindFieldByIndex typ (i + j)).2 ≠ k) →
      m k = result k := by
  intro l
  induction l with
  | nil =>
    intro i result m hm _
    simp only [BuildQueryWithoutIdFromObject.loop, Option.some.injEq] at hm
    rw [← hm]
  | cons p rest ih =>
    intro i result m hm h
    obtain ⟨g, w⟩ := p
    have hrest : ∀ j, j < rest.length → ((i + 1 + j : Nat) : Int) ≠ idIndex →
        (FindFieldByIndex typ (i + 1 + j)).2 ≠ k := by
      intro j hj hne
      have e : i + 1 + j = i + (j + 1) := by omega
      rw [e] at hne ⊢
      exact h (j + 1) (by simp only [List.length_cons]; omega) hne
    by_cases hid : (i : Int) ≠ idIndex
    · have h0 : (FindFieldByIndex typ i).2 ≠ k := by
        have := h 0 (by simp) (by simpa using hid)
        simpa using this
      by_cases hexp : g.PkgPath = ""
      · simp only [BuildQueryWithoutIdFromObject.loop, hid, ne_eq, not_false_eq_true, if_true,
          hexp] at hm
        rw [ih (i + 1) _ m hm hrest]
        simp [GoMap.set, Ne.symm h0]
      · simp [BuildQueryWithoutIdFromObject.loop, hid, hexp] at hm
    · simp only [BuildQueryWithoutIdFromObject.loop, hid, if_false] at hm
      exact ih (i + 1) _ m hm hrest

/-- The loop of `BuildQueryWithoutIdFromObject`, when it returns a map, has kept under
the key of an emitted field what `Interface()` returns for that field, provided no later
emitted field is written under the same key. -/
theorem BuildQueryWithoutIdFromObject_loop_emitted (typ : StructType) (idIndex : Int) :
    ∀ (l : List (StructField × Value)) (i k : Nat) (result m : GoMap Value)
      (f : StructField) (v : Value),
      BuildQueryWithoutIdFromObject.loop typ idIndex l i result = some m →
      l[k]? = some (f, v) →
      ((i + k : Nat) : Int) ≠ idIndex →
      (∀ j, k < j → j < l.length → ((i + j : Nat) : Int) ≠ idIndex →
        (FindFieldByIndex typ (i + j)).2 ≠ (FindFieldByIndex typ (i + k)).2) →
      m (FindFieldByIndex typ (i + k)).2 = some v.Interface := by
  intro l
  induction l with
  | nil => intro i k result m f v _ h; simp at h
  | cons p rest ih =>
    intro i k result m f v hm hk hid hlater
    obtain ⟨g, w⟩ := p
    cases k with
    | zero =>
      simp only [List.getElem?_cons_zero, Option.some.injEq, Prod.mk.injEq] at hk
      obtain ⟨rfl, rfl⟩ := hk
      have hid0 : (i : Int) ≠ idIndex := by simpa using hid
      by_cases hexp : g.PkgPath = ""
      · simp only [BuildQueryWithoutIdFromObject.loop, hid0, ne_eq, not_false_eq_true,
          if_true, hexp] at hm
        simp only [Nat.add_zero]
        rw [BuildQueryWithoutIdFromObject_loop_untouched typ idIndex _ rest (i + 1) _ m hm]
        · simp [GoMap.set]
        · intro j hj hne
          have e : i + 1 + j = i + (j + 1) := by omega
          rw [e] at hne ⊢
          have := hlater (j + 1) (Nat.succ_pos j) (by simp only [List.length_cons]; omega) hne
          simpa using this
      · simp [BuildQueryWithoutIdFromObject.loop, hid0, hexp] at hm
    | succ k =>
      simp only [List.getElem?_cons_succ] at hk
      have e : i + (k + 1) = i + 1 + k := by omega
      rw [e] at hid ⊢
      have hrest : ∀ j, k < j → j < rest.length → ((i + 1 + j : Nat) : Int) ≠ idIndex →
          (FindFieldByIndex typ (i + 1 + j)).2 ≠ (FindFieldByIndex typ (i + 1 + k)).2 := by
        intro j hkj hj hne
        have e' : i + 1 + j = i + (j + 1) := by omega
        rw [e'] at hne ⊢
        rw [← e]
        exact hlater (j + 1) (by omega) (by simp only [List.length_cons]; omega) hne
      by_cases hid0 : (i : Int) ≠ idIndex
      · by_cases hexp : g.PkgPath = ""
        · simp only [BuildQueryWithoutIdFromObject.loop, hid0, ne_eq, not_false_eq_true,
            if_true, hexp] at hm
          exact ih (i + 1) k _ m f v hm hk hid hrest
        · simp [BuildQueryWithoutIdFromObject.loop, hid0, hexp] at hm
      · simp only [BuildQueryWithoutIdFromObject.loop, hid0, if_false] at hm
        exact ih (i + 1) k _ m f v hm hk hid hrest

/-- The loop of `BuildQueryWithoutIdFromObject` returns a map when every field it emits
is exported. -/
theorem BuildQueryWithoutIdFromObject_loop_returns (typ : StructType) (idIndex : Int) :
    ∀ (l : List (StructField × Value)) (i : Nat) (result : GoMap Value),
      (∀ j f v, l[j]? = some (f, v) → ((i + j : Nat) : Int) ≠ idIndex → f.PkgPath = "") →
      ∃ m, BuildQueryWithoutIdFromObject.loop typ idIndex l i result = some m := by
  intro l
  induction l with
  | nil => intro i result _; exact ⟨result, rfl⟩
  | cons p rest ih =>
    intro i result h
    obtain ⟨g, w⟩ := p
    have hrest : ∀ j f v, rest[j]? = some (f, v) → ((i + 1 + j : Nat) : Int) ≠ idIndex →
        f.PkgPath = "" := by
      intro j f v hj hne
      have e : i + 1 + j = i + (j + 1) := by omega
      rw [e] at hne
      exact h (j + 1) f v (by simpa using hj) hne
    by_cases hid : (i : Int) ≠ idIndex
    · have hexp : g.PkgPath = "" := h 0 g w (by simp) (by simpa using hid)
      simp only [BuildQueryWithoutIdFromObject.loop, hid, ne_eq, not_false_eq_true, if_true,
        hexp]
      exact ih (i + 1) _ hrest
    · simp only [BuildQueryWithoutIdFromObject.loop, hid, if_false]
      exact ih (i + 1) _ hrest

/-- Go function `BuildQueryWithoutIdFromObject` returns a map when every field other than
the identifier field is exported. -/
theorem BuildQueryWithoutIdFromObject_returns (object : Record)
    (hexp : ∀ (j : Nat) (g : StructField) (w : Value), object[j]? = some (g, w) →
      (j : Int) ≠ (FindIdField object.Type).1 → g.PkgPath = "") :
    ∃ m, BuildQueryWithoutIdFromObject object = some m := by
  unfold BuildQueryWithoutIdFromObject
  apply BuildQueryWithoutIdFromObject_loop_returns
  intro j f v hj hne
  simp only [Nat.zero_add] at hne
  exact hexp j f v hj hne

/-- C1 (as amended): for every struct record whose fields other than the identifier
field found by `FindIdField` are all exported, `BuildQueryWithoutIdFromObject` returns a
map, and for every field that carries a json annotation and is not the identifier field
(any annotated field when the type has no identifier binding), if no later emitted
field is written under the same key, the map has an entry whose key is the first
comma-delimited token of the annotation and whose value is the field's runtime value
(what `Interface()` returns for it) unchanged. -/
theorem BuildQueryWithoutIdFromObject_annotated_entry (object : Record) (i : Nat)
    (f : StructField) (v : Value) (tag : String)
    (hexp : ∀ (j : Nat) (g : StructField) (w : Value), object[j]? = some (g, w) →
      (j : Int) ≠ (FindIdField object.Type).1 → g.PkgPath = "")
    (hi : object[i]? = some (f, v)) (htag : f.Tag = some tag)
    (hid : (i : Int) ≠ (FindIdField object.Type).1)
    (hlater : ∀ j, i < j → j < object.length → (j : Int) ≠ (FindIdField object.Type).1 →
      (FindFieldByIndex object.Type j).2 ≠ firstToken tag) :
    ∃ m, BuildQueryWithoutIdFromObject object = some m ∧
      m (firstToken tag) = some v.Interface := by
  obtain ⟨m, hm⟩ := BuildQueryWithoutIdFromObject_returns object hexp
  refine ⟨m, hm, ?_⟩
  have hty : object.Type[i]? = some f := by simp [Record.Type, hi]
  have hkey : (FindFieldByIndex object.Type (0 + i)).2 = firstToken tag := by
    rw [Nat.zero_add, FindFieldByIndex_annotated object.Type i f tag hty htag]
  have := BuildQueryWithoutIdFromObject_loop_emitted object.Type (FindIdField object.Type).1
    object 0 i GoMap.empty m f v hm hi (by simpa using hid)
    (by
      intro j hij hj hne
      rw [hkey]
      simp only [Nat.zero_add] at hne ⊢
      exact hlater j hij hj hne)
  rw [hkey] at this
  exact this

/-- C1, witness of the amended statement: the `name` property of a record whose first
field is the identifier. -/
theorem BuildQueryWithoutIdFromObject_annotated_entry_witness :
    ∃ m, BuildQueryWithoutIdFromObject
        [(⟨"Id", some "_id", ""⟩, .str "7"), (⟨"Name", some "name,omitempty", ""⟩, .str "n")]
        = some m ∧ m "name" = some (.str "n") :=
  BuildQueryWithoutIdFromObject_annotated_entry
    [(⟨"Id", some "_id", ""⟩, .str "7"), (⟨"Name", some "name,omitempty", ""⟩, .str "n")] 1
    ⟨"Name", some "name,omitempty", ""⟩ (.str "n") "name,omitempty"
    (by
      intro j g w hj _
      match j, hj with
      | 0, hj =>
        simp only [List.getElem?_cons_zero, Option.some.injEq, Prod.mk.injEq] at hj
        rw [← hj.1]
      | 1, hj =>
        simp only [List.getElem?_cons_succ, List.getElem?_cons_zero, Option.some.injEq,
          Prod.mk.injEq] at hj
        rw [← hj.1]
      | j + 2, hj => simp at hj)
    (by decide) rfl (by decide)
    (by
      intro j hij hj
      simp only [List.length_cons, List.length_nil] at hj
      omega)

/-- C1, counterexample to the claim as stated. Two fields share the property name `x`:
the map holds the value of the later one, so the earlier field has no entry with its own
value. A field without annotation has property name `Name` by the claim, yet the map has
no entry under `Name`. A record with an unexported field that is not the identifier
gets no map at all: `Interface()` panics on that field. -/
theorem BuildQueryWithoutIdFromObject_counterexample :
    (StructField.propertyName ⟨"A", some "x", ""⟩ = "x" ∧
      (BuildQueryWithoutIdFromObject
        [(⟨"A", some "x", ""⟩, .str "1"), (⟨"B", some "x", ""⟩, .str "2")]).map
        (fun m => m "x") = some (some (.str "2"))) ∧
    (StructField.propertyName ⟨"Name", none, ""⟩ = "Name" ∧
      (BuildQueryWithoutIdFromObject [(⟨"Name", none, ""⟩, .str "n")]).map
        (fun m => m "Name") = some none) ∧
    (BuildQueryWithoutIdFromObject
      [(⟨"name", some "name", "main"⟩, .str "n")]).isNone = true := by
  decide

/-- C3 (as amended): for every struct record in which no field other than the identifier
field found by `FindIdField` carries a json annotation whose first token is `_id`, the
map returned by `BuildQueryWithoutIdFromObject` has no entry under the key `_id`. -/
theorem BuildQueryWithoutIdFromObject_no_id_key (object : Record)
    (hone : ∀ (j : Nat) (f : StructField) (v : Value), object[j]? = some (f, v) →
      (j : Int) ≠ (FindIdField object.Type).1 → ¬ f.annotatedAs "_id") :
    ∀ m, BuildQueryWithoutIdFromObject object = some m → m "_id" = none := by
  intro m hm
  unfold BuildQueryWithoutIdFromObject at hm
  rw [BuildQueryWithoutIdFromObject_loop_untouched object.Type (FindIdField object.Type).1
    "_id" object 0 GoMap.empty m hm]
  · rfl
  · intro j hj hne
    simp only [Nat.zero_add] at hne ⊢
    have hsome : object[j]? = some object[j] := List.getElem?_eq_getElem hj
    have hnot := hone j object[j].1 object[j].2 hsome hne
    have hty : object.Type[j]? = some object[j].1 := by simp [Record.Type, hsome]
    cases htag : object[j].1.Tag with
    | none =>
      simp only [FindFieldByIndex, hty, htag]
      decide
    | some tag =>
      rw [FindFieldByIndex_annotated object.Type j object[j].1 tag hty htag]
      intro heq
      exact hnot (by simpa [StructField.annotatedAs, htag] using heq)

/-- C3, witness of the amended statement on a record with one identifier field: a map
is returned and it has no entry under `_id`. -/
theorem BuildQueryWithoutIdFromObject_no_id_key_witness :
    (BuildQueryWithoutIdFromObject
      [(⟨"Id", some "_id", ""⟩, .str "7"), (⟨"Name", some "name", ""⟩, .str "n")]).map
      (fun m => m "_id") = some none := by
  have h := BuildQueryWithoutIdFromObject_no_id_key
    [(⟨"Id", some "_id", ""⟩, .str "7"), (⟨"Name", some "name", ""⟩, .str "n")]
    (by
      intro j f v hj hne
      match j, hj, hne with
      | 0, _, hne => exact absurd rfl hne
      | 1, hj, _ =>
        simp only [List.getElem?_cons_succ, List.getElem?_cons_zero, Option.some.injEq,
          Prod.mk.injEq] at hj
        obtain ⟨rfl, -⟩ := hj
        decide
      | j + 2, hj, _ => simp at hj)
  cases hb : BuildQueryWithoutIdFromObject
      [(⟨"Id", some "_id", ""⟩, .str "7"), (⟨"Name", some "name", ""⟩, .str "n")] with
  | none =>
    have hs : (BuildQueryWithoutIdFromObject
      [(⟨"Id", some "_id", ""⟩, .str "7"), (⟨"Name", some "name", ""⟩, .str "n")]).isSome
        = true := by decide
    rw [hb] at hs
    exact absurd hs (by simp)
  | some m => simp [h m hb]

/-- C3, counterexample to the claim as stated: two fields are annotated `_id`; only the
first is the identifier, and the second is emitted under the key `_id`. -/
theorem BuildQueryWithoutIdFromObject_second_id_counterexample :
    FindIdField (Record.Type
      [(⟨"Id", some "_id", ""⟩, .str "1"), (⟨"Alt", some "_id", ""⟩, .str "2")])
      = (0, "Id") ∧
    (BuildQueryWithoutIdFromObject
      [(⟨"Id", some "_id", ""⟩, .str "1"), (⟨"Alt", some "_id", ""⟩, .str "2")]).map
      (fun m => m "_id") = some (some (.str "2")) := by
  decide

/-! ## Theorems: bulk write engine -/

/-- A found identifier index lies within the type. -/
theorem FindIdField_index_lt (modelType : StructType) (h : (FindIdField modelType).1 ≥ 0) :
    (FindIdField modelType).1.toNat < modelType.length := by
  by_cases hall : ∀ f ∈ modelType, ¬ f.annotatedAs "_id"
  · have := (FindFieldByJson_loop_absent "_id" modelType 0).1 hall
    simp only [FindIdField, FindFieldByJson, this] at h
    omega
  · push_neg at hall
    obtain ⟨f, hf, hann⟩ := hall
    obtain ⟨k, hk⟩ := List.getElem?_of_mem hf
    obtain ⟨j, g, hjk, hj, -, hloop⟩ := FindFieldByJson_loop_finds "_id" modelType 0 k f hk hann
    have hlt : j < modelType.length := by
      by_contra hge
      rw [List.getElem?_eq_none (by omega)] at hj
      exact absurd hj (by simp)
    simp only [FindIdField, FindFieldByJson, hloop]
    simpa using hlt

/-- An element of the model type has the field the loop reads. -/
theorem idField_exists (modelType : StructType) (r : Record) (hr : r.Type = modelType)
    (h : (FindIdField modelType).1 ≥ 0) :
    ∃ f v, r[(FindIdField modelType).1.toNat]? = some (f, v) := by
  have hlt := FindIdField_index_lt modelType h
  have hlen : r.length = modelType.length := by rw [← hr]; simp [Record.Type]
  have hlt' : (FindIdField modelType).1.toNat < r.length := by omega
  exact ⟨(r[(FindIdField modelType).1.toNat]).1, (r[(FindIdField modelType).1.toNat]).2,
    List.getElem?_eq_getElem hlt'⟩

/-- A record of the model type whose emitted fields are exported gets its body. -/
theorem body_returns (modelType : StructType) (r : Record) (hr : r.Type = modelType)
    (hexp : emittedExported modelType) :
    ∃ m, BuildQueryWithoutIdFromObject r = some m := by
  apply BuildQueryWithoutIdFromObject_returns
  intro j g w hj hne
  rw [hr] at hne
  have hty : modelType[j]? = some g := by rw [← hr]; simp [Record.Type, hj]
  exact hexp j g hty hne

/-- The submission loop, whenever it returns, has called `bi.Add` for the positions that
pass validation, kept the items `bi.Add` accepted, and recorded every other position as
failed. -/
theorem submitLoop_some (action : String) (bi : BulkIndexer) (modelType : StructType) :
    ∀ (l : List Record) (i : Nat) (st st' : Submitting),
      submitLoop action bi modelType l i st = some st' →
      st' =
        ⟨st.addCalls ++ ((l.enumFrom i).filter (fun p => passesValidation modelType p.2)).map
            (fun p => (p.1, itemOf action modelType p.2)),
         st.accepted ++ ((l.enumFrom i).filter
            (fun p => passesValidation modelType p.2 && (bi.addErr p.1).isNone)).map
            (fun p => itemOf action modelType p.2),
         st.failureIndex ++ ((l.enumFrom i).filter
            (fun p => !(passesValidation modelType p.2 && (bi.addErr p.1).isNone))).map
            (fun p => (p.1 : Int))⟩ := by
  intro l
  induction l with
  | nil =>
    intro i st st' h
    simp only [submitLoop, Option.some.injEq] at h
    simp [← h]
  | cons r rest ih =>
    intro i st st' h
    by_cases hid : (FindIdField modelType).1 ≥ 0
    · cases hfv : r[(FindIdField modelType).1.toNat]? with
      | none => simp [submitLoop, hid, hfv] at h
      | some fv =>
        obtain ⟨f, v⟩ := fv
        have hidv : idValueOf modelType r = v.String := by simp [idValueOf, hfv]
        by_cases hv : v.String = ""
        · have hpass : passesValidation modelType r = false := by
            simp [passesValidation, hidv, hv]
          simp only [submitLoop, hid, if_true, hfv, hv, ne_eq, not_true_eq_false, if_false] at h
          rw [ih (i + 1) _ st' h]
          simp [List.enumFrom_cons, List.filter_cons, hpass]
        · have hpass : passesValidation modelType r = true := by
            simp [passesValidation, hidv, hv, hid]
          cases hb : BuildQueryWithoutIdFromObject r with
          | none => simp [submitLoop, hid, hfv, hv, hb] at h
          | some body =>
            cases hadd : bi.addErr i with
            | some e =>
              simp only [submitLoop, hid, if_true, hfv, hv, ne_eq, not_false_eq_true, hb,
                hadd] at h
              rw [ih (i + 1) _ st' h]
              simp [List.enumFrom_cons, List.filter_cons, hpass, hadd, itemOf, hidv, hb]
            | none =>
              simp only [submitLoop, hid, if_true, hfv, hv, ne_eq, not_false_eq_true, hb,
                hadd] at h
              rw [ih (i + 1) _ st' h]
              simp [List.enumFrom_cons, List.filter_cons, hpass, hadd, itemOf, hidv, hb]
    · have hpass : passesValidation modelType r = false := by
        simp [passesValidation, hid]
      simp only [submitLoop, hid, if_false] at h
      rw [ih (i + 1) _ st' h]
      simp [List.enumFrom_cons, List.filter_cons, hpass]

/-- The submission loop returns on elements of the model type when the emitted fields of
the type are exported. -/
theorem submitLoop_returns (action : String) (bi : BulkIndexer) (modelType : StructType)
    (hexp : emittedExported modelType) :
    ∀ (l : List Record) (i : Nat) (st : Submitting), (∀ r ∈ l, r.Type = modelType) →
      ∃ st', submitLoop action bi modelType l i st = some st' := by
  intro l
  induction l with
  | nil => intro i st _; exact ⟨st, rfl⟩
  | cons r rest ih =>
    intro i st hty
    have hrest : ∀ r' ∈ rest, r'.Type = modelType :=
      fun r' hr' => hty r' (List.mem_cons_of_mem _ hr')
    have hr : r.Type = modelType := hty r (List.mem_cons_self _ _)
    by_cases hid : (FindIdField modelType).1 ≥ 0
    · obtain ⟨f, v, hfv⟩ := idField_exists modelType r hr hid
      by_cases hv : v.String = ""
      · simp only [submitLoop, hid, if_true, hfv, hv, ne_eq, not_true_eq_false, if_false]
        exact ih (i + 1) _ hrest
      · obtain ⟨body, hb⟩ := body_returns modelType r hr hexp
        cases hadd : bi.addErr i with
        | some e =>
          simp only [submitLoop, hid, if_true, hfv, hv, ne_eq, not_false_eq_true, hb, hadd]
          exact ih (i + 1) _ hrest
        | none =>
          simp only [submitLoop, hid, if_true, hfv, hv, ne_eq, not_false_eq_true, hb, hadd]
          exact ih (i + 1) _ hrest
    · simp only [submitLoop, hid, if_false]
      exact ih (i + 1) _ hrest

/-- What a bulk operation has returned, whenever it returns, on a non-empty slice once the
batch channel has opened. -/
theorem bulkWrite_some (action : String) (h : Helpers) (bi : BulkIndexer)
    (modelType : StructType) (model : ModelArg) (elems : List Record) (out : BulkOutcome)
    (hmodel : model.indirect = some elems) (hne : elems ≠ [])
    (hopen : bi.newErr = none)
    (hout : bulkWrite action h bi modelType model = some out) :
    some out =
      match bi.closeErr with
      | some er2 => some ⟨[], [], some (Error.collaborator er2), true,
          ((elems.enum).filter (fun p => passesValidation modelType p.2)).map
            (fun p => (p.1, itemOf action modelType p.2)),
          ((elems.enum).filter
            (fun p => passesValidation modelType p.2 && (bi.addErr p.1).isNone)).map
            (fun p => itemOf action modelType p.2)⟩
      | none => some
          ⟨(h.BuildIndicesResult (h.FindListIdField modelType model)
              (successIdsOf bi.callbacks) (failIdsOf bi.callbacks)).1,
           (h.BuildIndicesResult (h.FindListIdField modelType model)
              (successIdsOf bi.callbacks) (failIdsOf bi.callbacks)).2 ++
            ((elems.enum).filter
              (fun p => !(passesValidation modelType p.2 && (bi.addErr p.1).isNone))).map
              (fun p => (p.1 : Int)),
           none, true,
           ((elems.enum).filter (fun p => passesValidation modelType p.2)).map
            (fun p => (p.1, itemOf action modelType p.2)),
           ((elems.enum).filter
            (fun p => passesValidation modelType p.2 && (bi.addErr p.1).isNone)).map
            (fun p => itemOf action modelType p.2)⟩ := by
  have hlen : elems.length > 0 := List.length_pos.mpr hne
  unfold bulkWrite at hout
  simp only [hmodel, hlen, if_true, hopen] at hout
  cases hloop : submitLoop action bi modelType elems 0 ⟨[], [], []⟩ with
  | none => simp [hloop] at hout
  | some st =>
    have hst := submitLoop_some action bi modelType elems 0 _ st hloop
    simp only [hloop] at hout
    rw [← hout, hst]
    cases bi.closeErr <;> simp [List.enum]

/-- A bulk operation returns on a slice of elements of the model type when the emitted
fields of the type are exported. -/
theorem bulkWrite_returns (action : String) (h : Helpers) (bi : BulkIndexer)
    (modelType : StructType) (model : ModelArg) (elems : List Record)
    (hmodel : model.indirect = some elems)
    (hty : ∀ r ∈ elems, r.Type = modelType) (hexp : emittedExported modelType) :
    ∃ out, bulkWrite action h bi modelType model = some out := by
  unfold bulkWrite
  simp only [hmodel]
  by_cases hlen : elems.length > 0
  · simp only [hlen, if_true]
    cases bi.newErr with
    | some err => exact ⟨_, rfl⟩
    | none =>
      obtain ⟨st, hst⟩ := submitLoop_returns action bi modelType hexp elems 0 ⟨[], [], []⟩ hty
      simp only [hst]
      cases bi.closeErr with
      | some er2 => exact ⟨_, rfl⟩
      | none => exact ⟨_, rfl⟩
  · simp only [hlen, if_false]
    exact ⟨_, rfl⟩

/-- A position that fails validation is among the failed positions the loop records and
has no `bi.Add` call. -/
theorem invalid_position_recorded (action : String) (bi : BulkIndexer)
    (modelType : StructType) (elems : List Record) (i : Nat) (r : Record)
    (hi : elems[i]? = some r) (hinv : passesValidation modelType r = false) :
    (i : Int) ∈ ((elems.enum).filter
        (fun p => !(passesValidation modelType p.2 && (bi.addErr p.1).isNone))).map
        (fun p => (p.1 : Int)) ∧
    ∀ item, (i, item) ∉ ((elems.enum).filter (fun p => passesValidation modelType p.2)).map
        (fun p => (p.1, itemOf action modelType p.2)) := by
  have hmem : (i, r) ∈ elems.enum := List.mk_mem_enum_iff_getElem?.mpr hi
  constructor
  · refine List.mem_map.mpr ⟨(i, r), List.mem_filter.mpr ⟨hmem, ?_⟩, rfl⟩
    simp [hinv]
  · intro item hitem
    obtain ⟨p, hp, hpe⟩ := List.mem_map.mp hitem
    obtain ⟨hpmem, hpass⟩ := List.mem_filter.mp hp
    have hp1 : p.1 = i := (Prod.mk.inj hpe).1
    have hget : elems[p.1]? = some p.2 := List.mem_enum_iff_getElem?.mp hpmem
    rw [hp1, hi] at hget
    have hp2 : r = p.2 := Option.some.inj hget
    rw [← hp2, hinv] at hpass
    exact absurd hpass (by simp)

/-- The two ways of failing validation, in terms of the tests of the loop. -/
theorem passesValidation_false_of (modelType : StructType) (r : Record)
    (hinvalid : (FindIdField modelType).1 < 0 ∨
      ∃ f, r[(FindIdField modelType).1.toNat]? = some (f, Value.str "")) :
    passesValidation modelType r = false := by
  rcases hinvalid with hneg | ⟨f, hf⟩
  · have : ¬ (FindIdField modelType).1 ≥ 0 := by omega
    simp [passesValidation, this]
  · simp [passesValidation, idValueOf, hf, Value.String]

/-- C7: for every non-empty slice for which the batch channel opens and closes without
error, whenever `InsertMany` or `UpsertMany` returns it returns without error, and every
position whose record fails submission-time validation (the type has no identifier
binding, or the record's identifier field holds the empty string) is in the returned
failed list and has no `bi.Add` call, whatever the two absent helpers compute; and the
two do return on elements of the model type whose emitted fields are exported. -/
theorem failed_validation_in_failed (h : Helpers) (bi : BulkIndexer)
    (modelType : StructType) (model : ModelArg) (elems : List Record) (i : Nat)
    (r : Record) (hmodel : model.indirect = some elems)
    (hopen : bi.newErr = none) (hclose : bi.closeErr = none)
    (hi : elems[i]? = some r)
    (hinvalid : (FindIdField modelType).1 < 0 ∨
      ∃ f, r[(FindIdField modelType).1.toNat]? = some (f, Value.str "")) :
    ((∀ out, InsertMany h bi modelType model = some out →
        out.err = none ∧ (i : Int) ∈ out.failureIndices ∧
        ∀ item, (i, item) ∉ out.addCalls) ∧
      ((∀ r ∈ elems, r.Type = modelType) → emittedExported modelType →
        ∃ out, InsertMany h bi modelType model = some out ∧ out.err = none ∧
          (i : Int) ∈ out.failureIndices ∧ ∀ item, (i, item) ∉ out.addCalls)) ∧
    ((∀ out, UpsertMany h bi modelType model = some out →
        out.err = none ∧ (i : Int) ∈ out.failureIndices ∧
        ∀ item, (i, item) ∉ out.addCalls) ∧
      ((∀ r ∈ elems, r.Type = modelType) → emittedExported modelType →
        ∃ out, UpsertMany h bi modelType model = some out ∧ out.err = none ∧
          (i : Int) ∈ out.failureIndices ∧ ∀ item, (i, item) ∉ out.addCalls)) := by
  have hne : elems ≠ [] := by
    intro he; rw [he] at hi; simp at hi
  have hinv := passesValidation_false_of modelType r hinvalid
  have cond : ∀ action out, bulkWrite action h bi modelType model = some out →
      out.err = none ∧ (i : Int) ∈ out.failureIndices ∧
      ∀ item, (i, item) ∉ out.addCalls := by
    intro action out hout
    have hrec := invalid_position_recorded action bi modelType elems i r hi hinv
    have hsome := bulkWrite_some action h bi modelType model elems out hmodel hne hopen hout
    rw [hclose] at hsome
    have heq := Option.some.inj hsome
    rw [heq]
    exact ⟨rfl, List.mem_append_right _ hrec.1, hrec.2⟩
  have key : ∀ action, (∀ r ∈ elems, r.Type = modelType) → emittedExported modelType →
      ∃ out, bulkWrite action h bi modelType model = some out ∧ out.err = none ∧
        (i : Int) ∈ out.failureIndices ∧ ∀ item, (i, item) ∉ out.addCalls := by
    intro action hty hexp
    obtain ⟨out, hout⟩ := bulkWrite_returns action h bi modelType model elems hmodel hty hexp
    exact ⟨out, hout, cond action out hout⟩
  exact ⟨⟨cond "create", key "create"⟩, ⟨cond "index", key "index"⟩⟩

/-- C8: for every non-empty slice, if the batch channel opens and closing it returns an
error, then whenever `InsertMany` or `UpsertMany` returns it returns that error with
empty succeeded and failed lists, whatever positions the loop recorded as failed; and
the two do return on elements of the model type whose emitted fields are exported. -/
theorem close_error_no_partial_result (h : Helpers) (bi : BulkIndexer)
    (modelType : StructType) (model : ModelArg) (elems : List Record) (er2 : String)
    (hmodel : model.indirect = some elems) (hne : elems ≠ [])
    (hopen : bi.newErr = none) (hclose : bi.closeErr = some er2) :
    ((∀ out, InsertMany h bi modelType model = some out →
        out.err = some (Error.collaborator er2) ∧
        out.successIndices = [] ∧ out.failureIndices = []) ∧
      ((∀ r ∈ elems, r.Type = modelType) → emittedExported modelType →
        ∃ out, InsertMany h bi modelType model = some out ∧
          out.err = some (Error.collaborator er2) ∧
          out.successIndices = [] ∧ out.failureIndices = [])) ∧
    ((∀ out, UpsertMany h bi modelType model = some out →
        out.err = some (Error.collaborator er2) ∧
        out.successIndices = [] ∧ out.failureIndices = []) ∧
      ((∀ r ∈ elems, r.Type = modelType) → emittedExported modelType →
        ∃ out, UpsertMany h bi modelType model = some out ∧
          out.err = some (Error.collaborator er2) ∧
          out.successIndices = [] ∧ out.failureIndices = [])) := by
  have cond : ∀ action out, bulkWrite action h bi modelType model = some out →
      out.err = some (Error.collaborator er2) ∧
      out.successIndices = [] ∧ out.failureIndices = [] := by
    intro action out hout
    have hsome := bulkWrite_some action h bi modelType model elems out hmodel hne hopen hout
    rw [hclose] at hsome
    have heq := Option.some.inj hsome
    rw [heq]
    exact ⟨rfl, rfl, rfl⟩
  have key : ∀ action, (∀ r ∈ elems, r.Type = modelType) → emittedExported modelType →
      ∃ out, bulkWrite action h bi modelType model = some out ∧
        out.err = some (Error.collaborator er2) ∧
        out.successIndices = [] ∧ out.failureIndices = [] := by
    intro action hty hexp
    obtain ⟨out, hout⟩ := bulkWrite_returns action h bi modelType model elems hmodel hty hexp
    exact ⟨out, hout, cond action out hout⟩
  exact ⟨⟨cond "create", key "create"⟩, ⟨cond "index", key "index"⟩⟩

/-- The invalid-input return of the common body, and its absence on a non-empty slice. -/
theorem bulkWrite_invalid_input (action : String) (h : Helpers) (bi : BulkIndexer)
    (modelType : StructType) (model : ModelArg) :
    ((model.indirect = none ∨ model.indirect = some []) →
      bulkWrite action h bi modelType model =
        some ⟨[], [], some (Error.New "invalid input"), false, [], []⟩) ∧
    (∀ elems, model.indirect = some elems → elems ≠ [] →
      ∀ out, bulkWrite action h bi modelType model = some out →
        out.err ≠ some (Error.New "invalid input") ∧ out.opened = true) := by
  constructor
  · rintro (hnone | hempty)
    · simp [bulkWrite, hnone]
    · simp [bulkWrite, hempty]
  · intro elems hmodel hne out hout
    have hlen : elems.length > 0 := List.length_pos.mpr hne
    unfold bulkWrite at hout
    simp only [hmodel, hlen, if_true] at hout
    cases hnew : bi.newErr with
    | some err =>
      simp only [hnew, Option.some.injEq] at hout
      subst hout
      simp
    | none =>
      simp only [hnew] at hout
      cases hloop : submitLoop action bi modelType elems 0 ⟨[], [], []⟩ with
      | none => simp [hloop] at hout
      | some st =>
        simp only [hloop] at hout
        cases hclose : bi.closeErr with
        | some er2 =>
          simp only [hclose, Option.some.injEq] at hout
          subst hout
          simp
        | none =>
          simp only [hclose, Option.some.injEq] at hout
          subst hout
          simp

/-- C9: `InsertMany` and `UpsertMany` return the invalid-input error with empty
succeeded and failed lists, without opening a batch channel or calling `bi.Add`, if
their model argument (after pointer indirection) is not a slice or is a slice of length
0; for a non-empty slice whatever they return has the batch channel opened and is not
the invalid-input error. -/
theorem invalid_input_iff_not_nonempty_slice (h : Helpers) (bi : BulkIndexer)
    (modelType : StructType) (model : ModelArg) :
    ((model.indirect = none ∨ model.indirect = some []) →
      InsertMany h bi modelType model =
        some ⟨[], [], some (Error.New "invalid input"), false, [], []⟩ ∧
      UpsertMany h bi modelType model =
        some ⟨[], [], some (Error.New "invalid input"), false, [], []⟩) ∧
    (∀ elems, model.indirect = some elems → elems ≠ [] →
      (∀ out, InsertMany h bi modelType model = some out →
        out.err ≠ some (Error.New "invalid input") ∧ out.opened = true) ∧
      (∀ out, UpsertMany h bi modelType model = some out →
        out.err ≠ some (Error.New "invalid input") ∧ out.opened = true)) := by
  constructor
  · intro hm
    exact ⟨(bulkWrite_invalid_input "create" h bi modelType model).1 hm,
      (bulkWrite_invalid_input "index" h bi modelType model).1 hm⟩
  · intro elems hmodel hne
    exact ⟨(bulkWrite_invalid_input "create" h bi modelType model).2 elems hmodel hne,
      (bulkWrite_invalid_input "index" h bi modelType model).2 elems hmodel hne⟩

/-- Three tests of which every element passes exactly one split a list three ways. -/
theorem filter_three_way_perm {α : Type} (S F R : α → Bool) :
    ∀ (l : List α),
      (∀ p ∈ l, (S p = true ∧ F p = false ∧ R p = false) ∨
        (S p = false ∧ F p = true ∧ R p = false) ∨
        (S p = false ∧ F p = false ∧ R p = true)) →
      (l.filter S ++ (l.filter F ++ l.filter R)).Perm l := by
  intro l
  induction l with
  | nil => intro _; simp
  | cons a l ih =>
    intro h
    have ih' := ih (fun p hp => h p (List.mem_cons_of_mem _ hp))
    rcases h a (List.mem_cons_self _ _) with ⟨hs, hf, hr⟩ | ⟨hs, hf, hr⟩ | ⟨hs, hf, hr⟩
    · simp only [List.filter_cons, hs, hf, hr, if_true, Bool.false_eq_true, if_false,
        List.cons_append]
      exact List.Perm.cons a ih'
    · simp only [List.filter_cons, hs, hf, hr, if_true, Bool.false_eq_true, if_false,
        List.cons_append]
      exact List.perm_middle.trans (List.Perm.cons a ih')
    · simp only [List.filter_cons, hs, hf, hr, if_true, Bool.false_eq_true, if_false]
      have : l.filter S ++ (l.filter F ++ a :: l.filter R)
          = (l.filter S ++ l.filter F) ++ a :: l.filter R := by
        simp [List.append_assoc]
      rw [this]
      refine List.perm_middle.trans (List.Perm.cons a ?_)
      rw [List.append_assoc]
      exact ih'

/-- The identifiers of the success callbacks followed by those of the failure callbacks
are a rearrangement of the identifiers of all callbacks. -/
theorem successIds_failIds_perm (callbacks : List Callback) :
    (successIdsOf callbacks ++ failIdsOf callbacks).Perm
      (callbacks.map (fun c => c.DocumentID)) := by
  unfold successIdsOf failIdsOf
  rw [← List.map_append]
  exact (List.filter_append_perm (fun c => c.success) callbacks).map _

/-- The positions of an enumeration are pairwise distinct. -/
theorem enum_eq_of_fst_eq {α : Type} (l : List α) (p q : Nat × α) (hp : p ∈ l.enum)
    (hq : q ∈ l.enum) (h : p.1 = q.1) : p = q := by
  have h1 := List.mem_enum_iff_getElem?.mp hp
  have h2 := List.mem_enum_iff_getElem?.mp hq
  rw [h] at h1
  rw [h1] at h2
  exact Prod.ext h (Option.some.inj h2)

/-- A position that passes validation has a non-empty identifier. -/
theorem idValueOf_ne_empty_of_passes (modelType : StructType) (r : Record)
    (h : passesValidation modelType r = true) : idValueOf modelType r ≠ "" := by
  simp only [passesValidation, Bool.and_eq_true, decide_eq_true_eq] at h
  exact h.2

/-- Under the callback contract and with no non-empty identifier shared by two
positions, every position is of exactly one kind: its identifier was reported by a
success callback, or by a failure callback, or the loop recorded it as failed. -/
theorem position_exactly_one_kind (bi : BulkIndexer) (modelType : StructType)
    (elems : List Record)
    (hdistinct : ∀ (i j : Nat) (ri rj : Record), elems[i]? = some ri → elems[j]? = some rj →
      idValueOf modelType ri = idValueOf modelType rj → idValueOf modelType ri ≠ "" → i = j)
    (hcontract : (bi.callbacks.map (fun c => c.DocumentID)).Perm
      (((elems.enum).filter
        (fun p => passesValidation modelType p.2 && (bi.addErr p.1).isNone)).map
        (fun p => idValueOf modelType p.2))) :
    ∀ p ∈ elems.enum,
      (decide (idValueOf modelType p.2 ∈ successIdsOf bi.callbacks) = true ∧
        decide (idValueOf modelType p.2 ∈ failIdsOf bi.callbacks) = false ∧
        (!(passesValidation modelType p.2 && (bi.addErr p.1).isNone)) = false) ∨
      (decide (idValueOf modelType p.2 ∈ successIdsOf bi.callbacks) = false ∧
        decide (idValueOf modelType p.2 ∈ failIdsOf bi.callbacks) = true ∧
        (!(passesValidation modelType p.2 && (bi.addErr p.1).isNone)) = false) ∨
      (decide (idValueOf modelType p.2 ∈ successIdsOf bi.callbacks) = false ∧
        decide (idValueOf modelType p.2 ∈ failIdsOf bi.callbacks) = false ∧
        (!(passesValidation modelType p.2 && (bi.addErr p.1).isNone)) = true) := by
  have hE : elems.enum.Nodup := by
    apply List.Nodup.of_map Prod.fst
    rw [List.enum_map_fst]
    exact List.nodup_range _
  -- two accepted positions with one identifier are one position
  have hsame : ∀ x ∈ elems.enum, ∀ y ∈ elems.enum,
      passesValidation modelType x.2 = true →
      idValueOf modelType x.2 = idValueOf modelType y.2 → x = y := by
    intro x hx y hy hpass hxy
    have hx' := List.mem_enum_iff_getElem?.mp hx
    have hy' := List.mem_enum_iff_getElem?.mp hy
    exact enum_eq_of_fst_eq elems x y hx hy
      (hdistinct x.1 y.1 x.2 y.2 hx' hy' hxy (idValueOf_ne_empty_of_passes modelType x.2 hpass))
  have hA : (((elems.enum).filter
      (fun p => passesValidation modelType p.2 && (bi.addErr p.1).isNone)).map
      (fun p => idValueOf modelType p.2)).Nodup := by
    apply List.Nodup.map_on _ (List.Nodup.filter _ hE)
    intro x hx y hy hxy
    obtain ⟨hxE, hxacc⟩ := List.mem_filter.mp hx
    obtain ⟨hyE, -⟩ := List.mem_filter.mp hy
    simp only [Bool.and_eq_true] at hxacc
    exact hsame x hxE y hyE hxacc.1 hxy
  have hperm := (successIds_failIds_perm bi.callbacks).trans hcontract
  have hnodup : (successIdsOf bi.callbacks ++ failIdsOf bi.callbacks).Nodup :=
    hperm.nodup_iff.mpr hA
  have hdisj := List.disjoint_of_nodup_append hnodup
  intro p hp
  cases hacc : (passesValidation modelType p.2 && (bi.addErr p.1).isNone) with
  | true =>
    have hmemA : idValueOf modelType p.2 ∈ ((elems.enum).filter
        (fun p => passesValidation modelType p.2 && (bi.addErr p.1).isNone)).map
        (fun p => idValueOf modelType p.2) :=
      List.mem_map.mpr ⟨p, List.mem_filter.mpr ⟨hp, hacc⟩, rfl⟩
    have hmem := hperm.mem_iff.mpr hmemA
    rcases List.mem_append.mp hmem with hs | hf
    · left
      refine ⟨decide_eq_true hs, decide_eq_false (fun hf => hdisj hs hf), rfl⟩
    · right; left
      refine ⟨decide_eq_false (fun hs => hdisj hs hf), decide_eq_true hf, rfl⟩
  | false =>
    have hnot : idValueOf modelType p.2 ∉ successIdsOf bi.callbacks ++ failIdsOf bi.callbacks := by
      intro hmem
      have hmemA := hperm.mem_iff.mp hmem
      obtain ⟨q, hq, hqp⟩ := List.mem_map.mp hmemA
      obtain ⟨hqE, hqacc⟩ := List.mem_filter.mp hq
      have hqacc' := hqacc
      simp only [Bool.and_eq_true] at hqacc'
      have hqeq : q = p := hsame q hqE p hp hqacc'.1 hqp
      rw [hqeq, hacc] at hqacc
      exact absurd hqacc (by simp)
    right; right
    refine ⟨decide_eq_false (fun hs => hnot (List.mem_append_left _ hs)),
      decide_eq_false (fun hf => hnot (List.mem_append_right _ hf)), rfl⟩

/-- The reconciliation as modelled from the spec, on the identifier list of a slice. -/
theorem BuildIndicesResult_map (g : Record → String) (elems : List Record)
    (successIds failIds : List String) :
    BuildIndicesResult (elems.map g) successIds failIds =
      (((elems.enum).filter (fun p => decide (g p.2 ∈ successIds))).map
          (fun p => (p.1 : Int)),
       ((elems.enum).filter (fun p => decide (g p.2 ∈ failIds))).map
          (fun p => (p.1 : Int))) := by
  unfold BuildIndicesResult
  rw [List.enum_map, List.filter_map, List.filter_map, List.map_map, List.map_map]
  rfl

/-- The positions of a slice, as integers. -/
theorem enum_map_fst_cast (elems : List Record) :
    (elems.enum).map (fun p => (p.1 : Int)) = (List.range elems.length).map (fun k : Nat => (k : Int)) := by
  rw [← List.enum_map_fst elems, List.map_map]
  rfl

/-- The result lists of the common body, with the helpers as modelled from the spec, on
a non-empty slice when the batch channel opens and closes without error. -/
theorem bulkWrite_partition (action : String) (bi : BulkIndexer) (modelType : StructType)
    (model : ModelArg) (elems : List Record) (out : BulkOutcome)
    (hmodel : model.indirect = some elems) (hne : elems ≠ [])
    (hopen : bi.newErr = none) (hclose : bi.closeErr = none)
    (hdistinct : ∀ (i j : Nat) (ri rj : Record), elems[i]? = some ri → elems[j]? = some rj →
      idValueOf modelType ri = idValueOf modelType rj → idValueOf modelType ri ≠ "" → i = j)
    (hout : bulkWrite action specHelpers bi modelType model = some out) :
    out.err = none ∧
      (CallbackContract bi out.accepted →
        (out.successIndices ++ out.failureIndices).Perm
          ((List.range elems.length).map (fun k : Nat => (k : Int)))) := by
  have hsome := bulkWrite_some action specHelpers bi modelType model elems out hmodel hne
    hopen hout
  rw [hclose] at hsome
  have heq := Option.some.inj hsome
  rw [heq]
  refine ⟨rfl, ?_⟩
  intro hcontract
  simp only [CallbackContract, List.map_map] at hcontract
  have hcontract' : (bi.callbacks.map (fun c => c.DocumentID)).Perm
      (((elems.enum).filter
        (fun p => passesValidation modelType p.2 && (bi.addErr p.1).isNone)).map
        (fun p => idValueOf modelType p.2)) := hcontract
  simp only [specHelpers, FindListIdField, hmodel]
  by_cases hid : (FindIdField modelType).1 ≥ 0
  · simp only [hid, if_true, BuildIndicesResult_map]
    have hkind := position_exactly_one_kind bi modelType elems hdistinct hcontract'
    have hperm := filter_three_way_perm
      (fun p : Nat × Record => decide (idValueOf modelType p.2 ∈ successIdsOf bi.callbacks))
      (fun p : Nat × Record => decide (idValueOf modelType p.2 ∈ failIdsOf bi.callbacks))
      (fun p : Nat × Record => !(passesValidation modelType p.2 && (bi.addErr p.1).isNone))
      elems.enum hkind
    have := hperm.map (fun p : Nat × Record => (p.1 : Int))
    rw [enum_map_fst_cast] at this
    simpa [List.map_append] using this
  · have hall : (elems.enum).filter
        (fun p => !(passesValidation modelType p.2 && (bi.addErr p.1).isNone)) = elems.enum := by
      apply List.filter_eq_self.mpr
      intro p _
      simp [passesValidation, hid]
    simp only [hid, if_false, hall, enum_map_fst_cast]
    simp [BuildIndicesResult]

/-- What a rearrangement of the positions gives: no duplicate, no common position, and
lengths that add up. -/
theorem of_perm_range (succeeded failed : List Int) (n : Nat)
    (h : (succeeded ++ failed).Perm ((List.range n).map (fun k : Nat => (k : Int)))) :
    (succeeded ++ failed).Nodup ∧ List.Disjoint succeeded failed ∧
    succeeded.length + failed.length = n := by
  have hnd : (succeeded ++ failed).Nodup := by
    apply h.nodup_iff.mpr
    exact (List.nodup_range n).map (fun a b hab => by exact_mod_cast hab)
  refine ⟨hnd, List.disjoint_of_nodup_append hnd, ?_⟩
  have := h.length_eq
  simpa using this

/-- C6 (as amended): for every non-empty slice in which no two positions share a
non-empty identifier, when the batch channel opens and closes without error, whenever
`InsertMany` or `UpsertMany` returns it returns without error, and if every accepted
item has received exactly one callback carrying its own identifier, the returned
succeeded and failed lists together contain every position `0..len-1` exactly once:
they are disjoint, hold no duplicate, and their lengths add up to the length of the
slice, whatever mix of skipped items, rejections by `bi.Add` and success or failure
callbacks occurred; and the two do return on elements of the model type whose emitted
fields are exported. The two helpers are as modelled from the spec. -/
theorem bulk_result_covers_every_position (bi : BulkIndexer) (modelType : StructType)
    (model : ModelArg) (elems : List Record)
    (hmodel : model.indirect = some elems) (hne : elems ≠ [])
    (hopen : bi.newErr = none) (hclose : bi.closeErr = none)
    (hdistinct : ∀ (i j : Nat) (ri rj : Record), elems[i]? = some ri → elems[j]? = some rj →
      idValueOf modelType ri = idValueOf modelType rj → idValueOf modelType ri ≠ "" → i = j) :
    ((∀ out, InsertMany specHelpers bi modelType model = some out → out.err = none ∧
        (CallbackContract bi out.accepted →
          (out.successIndices ++ out.failureIndices).Perm
            ((List.range elems.length).map (fun k : Nat => (k : Int))) ∧
          (out.successIndices ++ out.failureIndices).Nodup ∧
          List.Disjoint out.successIndices out.failureIndices ∧
          out.successIndices.length + out.failureIndices.length = elems.length)) ∧
      ((∀ r ∈ elems, r.Type = modelType) → emittedExported modelType →
        ∃ out, InsertMany specHelpers bi modelType model = some out)) ∧
    ((∀ out, UpsertMany specHelpers bi modelType model = some out → out.err = none ∧
        (CallbackContract bi out.accepted →
          (out.successIndices ++ out.failureIndices).Perm
            ((List.range elems.length).map (fun k : Nat => (k : Int))) ∧
          (out.successIndices ++ out.failureIndices).Nodup ∧
          List.Disjoint out.successIndices out.failureIndices ∧
          out.successIndices.length + out.failureIndices.length = elems.length)) ∧
      ((∀ r ∈ elems, r.Type = modelType) → emittedExported modelType →
        ∃ out, UpsertMany specHelpers bi modelType model = some out)) := by
  have cond : ∀ action out, bulkWrite action specHelpers bi modelType model = some out →
      out.err = none ∧
      (CallbackContract bi out.accepted →
        (out.successIndices ++ out.failureIndices).Perm
          ((List.range elems.length).map (fun k : Nat => (k : Int))) ∧
        (out.successIndices ++ out.failureIndices).Nodup ∧
        List.Disjoint out.successIndices out.failureIndices ∧
        out.successIndices.length + out.failureIndices.length = elems.length) := by
    intro action out hout
    obtain ⟨herr, hperm⟩ := bulkWrite_partition action bi modelType model elems out
      hmodel hne hopen hclose hdistinct hout
    exact ⟨herr, fun hc =>
      ⟨hperm hc, of_perm_range out.successIndices out.failureIndices elems.length (hperm hc)⟩⟩
  exact ⟨⟨cond "create", fun hty hexp =>
      bulkWrite_returns "create" specHelpers bi modelType model elems hmodel hty hexp⟩,
    ⟨cond "index", fun hty hexp =>
      bulkWrite_returns "index" specHelpers bi modelType model elems hmodel hty hexp⟩⟩

/-- The emitted field of the sample type is exported. -/
theorem sampleType_emittedExported : emittedExported sampleType := by
  intro j f hj _
  match j, hj with
  | 0, hj =>
    simp only [sampleType, List.getElem?_cons_zero, Option.some.injEq] at hj
    rw [← hj]
  | 1, hj =>
    simp only [sampleType, List.getElem?_cons_succ, List.getElem?_cons_zero,
      Option.some.injEq] at hj
    rw [← hj]
  | j + 2, hj => simp [sampleType] at hj

/-- C6, witness of the amended statement: a slice whose first element is accepted and
succeeds and whose second element has an empty identifier. -/
theorem bulk_result_covers_every_position_witness :
    ∃ out, InsertMany specHelpers (sampleIndexer [⟨true, "a"⟩]) sampleType
        (.slice [sampleRecord "a" "x", sampleRecord "" "y"]) = some out ∧ out.err = none ∧
      CallbackContract (sampleIndexer [⟨true, "a"⟩]) out.accepted ∧
      (out.successIndices ++ out.failureIndices).Perm
        ((List.range [sampleRecord "a" "x", sampleRecord "" "y"].length).map
          (fun k : Nat => (k : Int))) ∧
      out.successIndices.length + out.failureIndices.length
        = [sampleRecord "a" "x", sampleRecord "" "y"].length := by
  have T := bulk_result_covers_every_position (sampleIndexer [⟨true, "a"⟩]) sampleType
    (.slice [sampleRecord "a" "x", sampleRecord "" "y"])
    [sampleRecord "a" "x", sampleRecord "" "y"] rfl (by simp) rfl rfl
    (by
      intro i j ri rj hi hj heq hne
      match i, j, hi, hj with
      | 0, 0, _, _ => rfl
      | 1, 1, _, _ => rfl
      | 0, 1, hi, hj =>
        simp only [List.getElem?_cons_zero, List.getElem?_cons_succ, Option.some.injEq]
          at hi hj
        subst hi hj
        exact absurd heq (by decide)
      | 1, 0, hi, hj =>
        simp only [List.getElem?_cons_zero, List.getElem?_cons_succ, Option.some.injEq]
          at hi hj
        subst hi hj
        exact absurd heq (by decide)
      | i + 2, _, hi, _ => simp at hi
      | 0, j + 2, _, hj => simp at hj
      | 1, j + 2, _, hj => simp at hj)
  obtain ⟨out, hout⟩ := T.1.2 (by decide) sampleType_emittedExported
  have hc : CallbackContract (sampleIndexer [⟨true, "a"⟩]) out.accepted := by
    have hd : (InsertMany specHelpers (sampleIndexer [⟨true, "a"⟩]) sampleType
        (.slice [sampleRecord "a" "x", sampleRecord "" "y"])).map
        (fun o => decide (CallbackContract (sampleIndexer [⟨true, "a"⟩]) o.accepted))
        = some true := by decide
    rw [hout] at hd
    simpa using hd
  obtain ⟨herr, himp⟩ := T.1.1 out hout
  exact ⟨out, hout, herr, hc, (himp hc).1, (himp hc).2.2.2⟩

/-- C6, counterexample to the claim as stated, for every implementation of the two
absent helpers. First pair of runs: two records carry the identifier `a`; `bi.Add`
rejects the second record in one run and the first in the other, and the accepted item
gets its success callback. The helpers see the same arguments in both runs, yet the
loop records position 1 in one and position 0 in the other, so the returned lists cannot
hold every position exactly once in both. Second pair of runs: the identifiers `a` and
`b` are distinct and only `a` gets a callback; when `b` was accepted (and never got a
callback) the loop records nothing, when `bi.Add` rejected it the loop records
position 1, and the helpers again see the same arguments. With the helpers as modelled
from the spec the first run of each pair is the one that fails. -/
theorem bulk_result_counterexample :
    (¬ ∃ h : Helpers,
      (∃ out, InsertMany h
          ⟨none, fun i => if i = 1 then some "context canceled" else none, [⟨true, "a"⟩], none⟩
          sampleType (.slice [sampleRecord "a" "x", sampleRecord "a" "y"]) = some out ∧
        out.err = none ∧ (out.successIndices ++ out.failureIndices).Perm [0, 1]) ∧
      (∃ out, InsertMany h
          ⟨none, fun i => if i = 0 then some "context canceled" else none, [⟨true, "a"⟩], none⟩
          sampleType (.slice [sampleRecord "a" "x", sampleRecord "a" "y"]) = some out ∧
        out.err = none ∧ (out.successIndices ++ out.failureIndices).Perm [0, 1])) ∧
    (¬ ∃ h : Helpers,
      (∃ out, InsertMany h (sampleIndexer [⟨true, "a"⟩])
          sampleType (.slice [sampleRecord "a" "x", sampleRecord "b" "y"]) = some out ∧
        out.err = none ∧ out.successIndices.length + out.failureIndices.length = 2) ∧
      (∃ out, InsertMany h
          ⟨none, fun i => if i = 1 then some "context canceled" else none, [⟨true, "a"⟩], none⟩
          sampleType (.slice [sampleRecord "a" "x", sampleRecord "b" "y"]) = some out ∧
        out.err = none ∧ out.successIndices.length + out.failureIndices.length = 2)) ∧
    (InsertMany specHelpers
        ⟨none, fun i => if i = 1 then some "context canceled" else none, [⟨true, "a"⟩], none⟩
        sampleType (.slice [sampleRecord "a" "x", sampleRecord "a" "y"])).map
      (fun out => (out.successIndices, out.failureIndices, out.err,
        decide (CallbackContract
          ⟨none, fun i => if i = 1 then some "context canceled" else none, [⟨true, "a"⟩],
            none⟩ out.accepted)))
      = some ([0, 1], [1], none, true) ∧
    (InsertMany specHelpers (sampleIndexer [⟨true, "a"⟩])
        sampleType (.slice [sampleRecord "a" "x", sampleRecord "b" "y"])).map
      (fun out => (out.successIndices, out.failureIndices, out.err,
        decide (CallbackContract (sampleIndexer [⟨true, "a"⟩]) out.accepted)))
      = some ([0], [], none, false) := by
  refine ⟨?_, ?_, by decide, by decide⟩
  · rintro ⟨h, ⟨o1, h1, -, p1⟩, ⟨o2, h2, -, p2⟩⟩
    have e1 := Option.some.inj (bulkWrite_some "create" h
      ⟨none, fun i => if i = 1 then some "context canceled" else none, [⟨true, "a"⟩], none⟩
      sampleType (.slice [sampleRecord "a" "x", sampleRecord "a" "y"])
      [sampleRecord "a" "x", sampleRecord "a" "y"] o1 rfl (by simp) rfl h1)
    have e2 := Option.some.inj (bulkWrite_some "create" h
      ⟨none, fun i => if i = 0 then some "context canceled" else none, [⟨true, "a"⟩], none⟩
      sampleType (.slice [sampleRecord "a" "x", sampleRecord "a" "y"])
      [sampleRecord "a" "x", sampleRecord "a" "y"] o2 rfl (by simp) rfl h2)
    have f1 : (([sampleRecord "a" "x", sampleRecord "a" "y"].enum).filter
        (fun p => !(passesValidation sampleType p.2 &&
          (if p.1 = 1 then some "context canceled" else none).isNone))).map
        (fun p => (p.1 : Int)) = [1] := by decide
    have f2 : (([sampleRecord "a" "x", sampleRecord "a" "y"].enum).filter
        (fun p => !(passesValidation sampleType p.2 &&
          (if p.1 = 0 then some "context canceled" else none).isNone))).map
        (fun p => (p.1 : Int)) = [0] := by decide
    rw [e1] at p1
    rw [e2] at p2
    simp only [f1] at p1
    simp only [f2] at p2
    have c1 := p1.count_eq 0
    have c2 := p2.count_eq 0
    simp only [List.count_append, successIdsOf, failIdsOf] at c1 c2
    simp at c1 c2
    omega
  · rintro ⟨h, ⟨o1, h1, -, p1⟩, ⟨o2, h2, -, p2⟩⟩
    have e1 := Option.some.inj (bulkWrite_some "create" h (sampleIndexer [⟨true, "a"⟩])
      sampleType (.slice [sampleRecord "a" "x", sampleRecord "b" "y"])
      [sampleRecord "a" "x", sampleRecord "b" "y"] o1 rfl (by simp) rfl h1)
    have e2 := Option.some.inj (bulkWrite_some "create" h
      ⟨none, fun i => if i = 1 then some "context canceled" else none, [⟨true, "a"⟩], none⟩
      sampleType (.slice [sampleRecord "a" "x", sampleRecord "b" "y"])
      [sampleRecord "a" "x", sampleRecord "b" "y"] o2 rfl (by simp) rfl h2)
    have f1 : (([sampleRecord "a" "x", sampleRecord "b" "y"].enum).filter
        (fun p => !(passesValidation sampleType p.2 &&
          ((sampleIndexer [⟨true, "a"⟩]).addErr p.1).isNone))).map
        (fun p => (p.1 : Int)) = [] := by decide
    have f2 : (([sampleRecord "a" "x", sampleRecord "b" "y"].enum).filter
        (fun p => !(passesValidation sampleType p.2 &&
          (if p.1 = 1 then some "context canceled" else none).isNone))).map
        (fun p => (p.1 : Int)) = [1] := by decide
    rw [e1] at p1
    rw [e2] at p2
    simp only [f1] at p1
    simp only [f2] at p2
    simp only [successIdsOf, failIdsOf, sampleIndexer] at p1 p2
    simp at p1 p2
    omega

/-- C7, witness: the second element of the slice holds the empty identifier. -/
theorem failed_validation_in_failed_witness :
    (∃ out, InsertMany specHelpers (sampleIndexer [⟨true, "a"⟩]) sampleType
        (.slice [sampleRecord "a" "x", sampleRecord "" "y"]) = some out ∧ out.err = none ∧
      ((1 : Nat) : Int) ∈ out.failureIndices ∧ ∀ item, (1, item) ∉ out.addCalls) ∧
    (∃ out, UpsertMany specHelpers (sampleIndexer [⟨true, "a"⟩]) sampleType
        (.slice [sampleRecord "a" "x", sampleRecord "" "y"]) = some out ∧ out.err = none ∧
      ((1 : Nat) : Int) ∈ out.failureIndices ∧ ∀ item, (1, item) ∉ out.addCalls) :=
  ⟨(failed_validation_in_failed specHelpers (sampleIndexer [⟨true, "a"⟩]) sampleType
      (.slice [sampleRecord "a" "x", sampleRecord "" "y"])
      [sampleRecord "a" "x", sampleRecord "" "y"] 1 (sampleRecord "" "y") rfl
      rfl rfl rfl (Or.inr ⟨⟨"Id", some "_id", ""⟩, rfl⟩)).1.2 (by decide)
      sampleType_emittedExported,
    (failed_validation_in_failed specHelpers (sampleIndexer [⟨true, "a"⟩]) sampleType
      (.slice [sampleRecord "a" "x", sampleRecord "" "y"])
      [sampleRecord "a" "x", sampleRecord "" "y"] 1 (sampleRecord "" "y") rfl
      rfl rfl rfl (Or.inr ⟨⟨"Id", some "_id", ""⟩, rfl⟩)).2.2 (by decide)
      sampleType_emittedExported⟩

/-- C8, witness: the batch channel opens, and closing it fails. -/
theorem close_error_no_partial_result_witness :
    (∃ out, InsertMany specHelpers ⟨none, fun _ => none, [], some "flush failed"⟩ sampleType
        (.slice [sampleRecord "a" "x", sampleRecord "" "y"]) = some out ∧
      out.err = some (Error.collaborator "flush failed") ∧
      out.successIndices = [] ∧ out.failureIndices = []) ∧
    (∃ out, UpsertMany specHelpers ⟨none, fun _ => none, [], some "flush failed"⟩ sampleType
        (.slice [sampleRecord "a" "x", sampleRecord "" "y"]) = some out ∧
      out.err = some (Error.collaborator "flush failed") ∧
      out.successIndices = [] ∧ out.failureIndices = []) :=
  ⟨(close_error_no_partial_result specHelpers ⟨none, fun _ => none, [], some "flush failed"⟩
      sampleType (.slice [sampleRecord "a" "x", sampleRecord "" "y"])
      [sampleRecord "a" "x", sampleRecord "" "y"] "flush failed" rfl (by simp)
      rfl rfl).1.2 (by decide) sampleType_emittedExported,
    (close_error_no_partial_result specHelpers ⟨none, fun _ => none, [], some "flush failed"⟩
      sampleType (.slice [sampleRecord "a" "x", sampleRecord "" "y"])
      [sampleRecord "a" "x", sampleRecord "" "y"] "flush failed" rfl (by simp)
      rfl rfl).2.2 (by decide) sampleType_emittedExported⟩

/-- C9, witness: an argument that is not a slice. -/
theorem invalid_input_iff_not_nonempty_slice_witness :
    InsertMany specHelpers (sampleIndexer []) sampleType .other =
      some ⟨[], [], some (Error.New "invalid input"), false, [], []⟩ ∧
    UpsertMany specHelpers (sampleIndexer []) sampleType .other =
      some ⟨[], [], some (Error.New "invalid input"), false, [], []⟩ :=
  (invalid_input_iff_not_nonempty_slice specHelpers (sampleIndexer []) sampleType .other).1
    (Or.inl rfl)

/-! ## Theorems: single-record operations -/

/-- What `PatchOne` does on a raw field map in which no identifier is resolvable: it
panics when the map has no `_id` key or holds nil under it, and returns the
missing-identifier error when it holds the empty string; in all three cases it issues no
request and leaves the map unchanged. -/
theorem PatchOne_unresolvable (engine : UpdateRequest → UpdateResponse) (indexName : String)
    (model : GoMap Value) :
    ((model "_id" = none ∨ model "_id" = some Value.nil) →
      (PatchOne engine indexName model).ret = none ∧
      (PatchOne engine indexName model).model = model ∧
      (PatchOne engine indexName model).requests = []) ∧
    (model "_id" = some (Value.str "") →
      (PatchOne engine indexName model).ret
        = some (0, some (Error.New "missing document ID in the map")) ∧
      (PatchOne engine indexName model).model = model ∧
      (PatchOne engine indexName model).requests = []) := by
  constructor
  · rintro (h | h) <;> simp [PatchOne, h, Value.IsZero]
  · intro h
    simp [PatchOne, h, Value.IsZero]

/-- C10, the code at the failing inputs: on a map without `_id` key and on a map holding
nil under `_id`, `PatchOne` panics (no pair is returned) where the claim has it return
the missing-identifier error; on a map holding the empty string under `_id` it returns
that error. -/
theorem PatchOne_missing_id_panics :
    (PatchOne (fun _ => .acknowledged 1) "idx" (GoMap.empty.set "name" (.str "x"))).ret
      = none ∧
    (PatchOne (fun _ => .acknowledged 1) "idx" (GoMap.empty.set "_id" .nil)).ret = none ∧
    (PatchOne (fun _ => .acknowledged 1) "idx" (GoMap.empty.set "_id" (.str ""))).ret
      = some (0, some (Error.New "missing document ID in the map")) := by
  decide

/-! ## Theorems: find operations -/

/-- No run of `FindOneByIdAndDecode` returns `(false, nil)`, the result that its callers
`FindOneById` and `PasscodeService.Load` allow for: whenever it reports "not found" it
also reports an error. -/
theorem FindOneByIdAndDecode_false_has_error (engine : GetRequest → DoResult)
    (decode : Json → Except String Record) (indexName documentID : String) :
    (FindOneByIdAndDecode engine decode indexName documentID).ret ≠ some (false, none) := by
  unfold FindOneByIdAndDecode
  cases engine ⟨indexName, documentID⟩ with
  | transportError err => simp
  | response StatusCode body =>
    by_cases hs : IsError StatusCode = true
    · simp [hs]
    · cases body with
      | undecodable err => simp [hs]
      | object r =>
        cases hd : decode (Json.index r "_source") with
        | error err => simp [hs, hd]
        | ok record => simp [hs, hd]

/-- Every get-by-id response with a status code above 299, the not-found status 404
among them, makes `FindOneByIdAndDecode` return `(false, response error)` without
decoding anything, and `FindOneById` return no record together with that error. -/
theorem error_status_is_response_error (engine : GetRequest → DoResult)
    (decode : Json → Except String Record) (indexName documentID : String)
    (StatusCode : Nat) (body : DecodedBody)
    (hres : engine ⟨indexName, documentID⟩ = .response StatusCode body)
    (hstatus : StatusCode > 299) :
    (FindOneByIdAndDecode engine decode indexName documentID).ret
      = some (false, some (Error.New "response error")) ∧
    (FindOneByIdAndDecode engine decode indexName documentID).payloads = [] ∧
    FindOneById engine decode indexName documentID
      = some (none, some (Error.New "response error")) := by
  have hs : IsError StatusCode = true := by simp [IsError, hstatus]
  have hout : FindOneByIdAndDecode engine decode indexName documentID
      = ⟨some (false, some (Error.New "response error")), [], none⟩ := by
    simp [FindOneByIdAndDecode, hres, hs]
  refine ⟨by rw [hout], by rw [hout], ?_⟩
  simp [FindOneById, hout]

/-- C11, the code at the failing input: the engine answers status 404 with `found` false
and no `_source`; `FindOneByIdAndDecode` returns `(false, response error)` where the
claim has `(false, nil)`, and `FindOneById` returns that error where the claim has no
error. -/
theorem FindOneById_absent_is_response_error :
    IsError 404 = true ∧
    Json.index [("found", Json.bool false)] "_source" = Json.null ∧
    (FindOneByIdAndDecode (fun _ => .response 404 (.object [("found", .bool false)]))
        (fun _ => .ok []) "idx" "7").ret
      = some (false, some (Error.New "response error")) ∧
    FindOneById (fun _ => .response 404 (.object [("found", .bool false)]))
        (fun _ => .ok []) "idx" "7"
      = some (none, some (Error.New "response error")) := by
  refine ⟨by decide, rfl, by decide, by decide⟩

/-- What `FindOneAndDecode` does on a successful response whose envelope holds a hit
list and a total hit count: with a total below 1 it returns `(false, nil)` and decodes
nothing; with a total of at least 1 and a first hit it decodes that hit and nothing
else, returning `(true, nil)` when the decoding succeeds; with a total of at least 1 and
an empty hit list it panics on `hits[0]`. -/
theorem FindOneAndDecode_on_envelope (engine : SearchRequest → DoResult)
    (decode : Json → Except String Record) (index : List String) (query : Json)
    (StatusCode : Nat) (r hitsObject totalObject : List (String × Json))
    (hits : List Json) (total : Int)
    (hres : engine ⟨index, query, true, true⟩ = .response StatusCode (.object r))
    (hstatus : StatusCode ≤ 299)
    (h1 : (Json.index r "hits").assertObject = some hitsObject)
    (h2 : (Json.index hitsObject "hits").assertArray = some hits)
    (h3 : (Json.index hitsObject "total").assertObject = some totalObject)
    (h4 : (Json.index totalObject "value").assertNumber = some total) :
    (total < 1 → FindOneAndDecode engine decode index query = ⟨some (false, none), [], none⟩) ∧
    (∀ hit rest record, total ≥ 1 → hits = hit :: rest → decode hit = .ok record →
      FindOneAndDecode engine decode index query = ⟨some (true, none), [hit], some record⟩) ∧
    (∀ hit rest err, total ≥ 1 → hits = hit :: rest → decode hit = .error err →
      FindOneAndDecode engine decode index query
        = ⟨some (false, some (Error.collaborator err)), [hit], none⟩) ∧
    (total ≥ 1 → hits = [] →
      FindOneAndDecode engine decode index query = ⟨none, [], none⟩) := by
  have hs : IsError StatusCode = false := by
    simp only [IsError, decide_eq_false_iff_not]; omega
  refine ⟨?_, ?_, ?_, ?_⟩
  · intro ht
    have : ¬ total ≥ 1 := by omega
    simp [FindOneAndDecode, hres, hs, h1, h2, h3, h4, this]
  · intro hit rest record ht hh hd
    simp [FindOneAndDecode, hres, hs, h1, h2, h3, h4, ht, hh, hd]
  · intro hit rest err ht hh hd
    simp [FindOneAndDecode, hres, hs, h1, h2, h3, h4, ht, hh, hd]
  · intro ht hh
    simp [FindOneAndDecode, hres, hs, h1, h2, h3, h4, ht, hh]

/-- C12, the code at the failing input: the search succeeds with a total hit count of 1
and an empty hit list; `FindOneAndDecode` evaluates `hits[0]` and panics (no pair is
returned), and so does `FindOne`, where the claim has them not index past the end of
the hit list. With a first hit present the same total gives `(true, nil)`, and a total
of 0 gives `(false, nil)`. -/
theorem FindOneAndDecode_empty_hits_panics :
    (FindOneAndDecode (fun _ => .response 200 (.object (searchEnvelope [] 1)))
        (fun _ => .ok []) ["idx"] .null).ret = none ∧
    FindOne (fun _ => .response 200 (.object (searchEnvelope [] 1)))
        (fun _ => .ok []) ["idx"] .null = none ∧
    (FindOneAndDecode (fun _ => .response 200 (.object (searchEnvelope [.obj []] 1)))
        (fun _ => .ok []) ["idx"] .null).ret = some (true, none) ∧
    (FindOneAndDecode (fun _ => .response 200 (.object (searchEnvelope [] 0)))
        (fun _ => .ok []) ["idx"] .null).ret = some (false, none) := by
  decide

end Elasticsearch
